import Mathlib

/-!
Verification of the pyveil deterministic order model
(src/utils/web3utils.py, src/utils/zeroexutils.py, src/veil/veil_client.py).

The embedding works at the level the Python code does: Python str values are
modelled as List Char, bytes values as List Nat (each element a byte value),
Python int as Int or Nat, and decimal.Decimal values as an exact scaled pair
(coefficient, decimal exponent) or, where the code manipulates only exact
values, as a rational number.  The Keccak-256 primitive comes from the
external eth_utils library, so every hashing definition is parameterised by
an arbitrary keccak function of type List Nat to List Nat.
-/

set_option maxRecDepth 4000

/-- Characters of a string literal, the model of a Python str. -/
def strChars (s : String) : List Char := s.data

/-- Left padding of a list to width w with a fill element: the model of
bytes.rjust and of zero padding in Python format strings. -/
def leftPad {α : Type} (fill : α) (w : Nat) (l : List α) : List α :=
  List.replicate (w - l.length) fill ++ l

/-- Python slice s[:-k] for a nonnegative k (note s[:-0] is s[:0], the
empty string). -/
def pySliceNeg (s : List Char) (k : Nat) : List Char :=
  if k = 0 then [] else s.take (s.length - k)

/-- Python slice s[-k:] for a nonnegative k (note s[-0:] is s[0:], the
whole string; for k greater than the length it is also the whole string). -/
def pyTailNeg (s : List Char) (k : Nat) : List Char :=
  if k = 0 then s else s.drop (s.length - k)

/-- Base b digits of n, least significant first, with explicit fuel so that
the definition is structural and kernel-evaluable. -/
def digitsLE (b : Nat) : Nat → Nat → List Nat
  | 0, _ => []
  | f + 1, n => if n = 0 then [] else n % b :: digitsLE b f (n / b)

/-- Base b digits of n, most significant first. -/
def renderDigitsBE (b n : Nat) : List Nat := (digitsLE b n n).reverse

/-- Value of a most-significant-first digit list in base b. -/
def ofDigitsBE (b : Nat) (l : List Nat) : Nat :=
  l.foldl (fun a d => a * b + d) 0

/-- Decimal rendering of a natural number, as Python str(n) produces it. -/
def natToDecChars (n : Nat) : List Char :=
  if n = 0 then ['0'] else (renderDigitsBE 10 n).map (fun d => Char.ofNat (48 + d))

/-- Lowercase hexadecimal digit character for a value below 16. -/
def hexChar (d : Nat) : Char :=
  if d < 10 then Char.ofNat (48 + d) else Char.ofNat (87 + d)

/-- Minimal (unpadded) lowercase hexadecimal rendering of n, as produced by
the digits of Python hex(n) after the 0x prefix. -/
def minHexChars (n : Nat) : List Char :=
  if n = 0 then ['0'] else (renderDigitsBE 16 n).map hexChar

/-- Python hex(n) for a nonnegative n: 0x followed by the minimal rendering. -/
def pyHex (n : Nat) : List Char := '0' :: 'x' :: minHexChars n

/-- Minimal big-endian byte string of a nonnegative integer, as the hexbytes
library converts a Python int (zero becomes the single zero byte). -/
def intToMinBytes (n : Nat) : List Nat :=
  if n = 0 then [0] else renderDigitsBE 256 n

/-- Fixed-width big-endian byte string, as int.to_bytes(k, byteorder=big)
produces for values below 256 to the k. -/
def natToBeBytes : Nat → Nat → List Nat
  | 0, _ => []
  | k + 1, n => natToBeBytes k (n / 256) ++ [n % 256]

/-- Fixed-width lowercase hexadecimal rendering with w digits. -/
def hexFixed : Nat → Nat → List Char
  | 0, _ => []
  | w + 1, n => hexFixed w (n / 16) ++ [hexChar (n % 16)]

/-- Lowercase hex rendering of a byte string, as Python bytes.hex() produces
(no 0x prefix, two hex characters per byte). -/
def bytesToHex (bs : List Nat) : List Char :=
  bs.foldr (fun b acc => hexChar (b / 16) :: hexChar (b % 16) :: acc) []

/-- Value of a hexadecimal digit character, case-insensitive as
binascii.unhexlify accepts it. -/
def hexDigitVal (c : Char) : Option Nat :=
  let n := c.toNat
  if 48 ≤ n ∧ n ≤ 57 then some (n - 48)
  else if 97 ≤ n ∧ n ≤ 102 then some (n - 87)
  else if 65 ≤ n ∧ n ≤ 70 then some (n - 55)
  else none

/-- Decode pairs of hexadecimal characters into bytes; fails on a non-hex
character, and an odd tail cannot occur after even-length padding. -/
def hexPairsToBytes : List Char → Option (List Nat)
  | [] => some []
  | [_] => none
  | c1 :: c2 :: rest => do
      let h ← hexDigitVal c1
      let l ← hexDigitVal c2
      let bs ← hexPairsToBytes rest
      return (16 * h + l) :: bs

/-- Strip an optional 0x or 0X prefix, as HexBytes does for str input. -/
def stripHexPfx (s : List Char) : List Char :=
  match s with
  | c0 :: c1 :: rest => if c0 = '0' ∧ (c1 = 'x' ∨ c1 = 'X') then rest else s
  | _ => s

/-- Left-pad an odd-length hex body with a zero digit, as HexBytes does. -/
def padEven (s : List Char) : List Char :=
  if s.length % 2 = 1 then '0' :: s else s

/-- Parse a hex string into bytes the way HexBytes does for str input: strip
an optional 0x or 0X prefix, left-pad an odd-length body with a zero digit,
then decode hex pairs case-insensitively; any other character fails. -/
def parseHexBytes (s : List Char) : Option (List Nat) :=
  hexPairsToBytes (padEven (stripHexPfx s))

/-- Decimal digit test for a character. -/
def isDecDigit (c : Char) : Bool := 48 ≤ c.toNat && c.toNat ≤ 57

/-- Value of a decimal digit string read most significant first. -/
def natFromChars (l : List Char) : Nat :=
  l.foldl (fun a c => a * 10 + (c.toNat - 48)) 0

/-- Parse a nonempty all-digit string as a natural number. -/
def parseNatStr (l : List Char) : Option Nat :=
  if l ≠ [] ∧ l.all isDecDigit then some (natFromChars l) else none

/-- Parse a decimal integer string with an optional leading minus sign, as
Python int(str) accepts for the canonical strings this code produces. -/
def parseInt (l : List Char) : Option Int :=
  if l.head? = some '-' then (parseNatStr l.tail).map (fun n => -(n : Int))
  else (parseNatStr l).map (fun n => (n : Int))

/-- Python decimal value m times 10 to the minus e, the exact scaled pair a
decimal.Decimal holds. -/
structure PyDecimal where
  m : Int
  e : Nat
deriving DecidableEq, Repr

/-- Equality of two Python decimals (Decimal == compares the numeric
values m1 / 10^e1 and m2 / 10^e2): cross-multiplied integer comparison. -/
def pyDecEq (x y : PyDecimal) : Bool :=
  x.m * (10 : Int) ^ y.e == y.m * (10 : Int) ^ x.e

/-- Split a character list at the first dot; when no dot occurs the second
component is empty. -/
def splitDot : List Char → (List Char × List Char)
  | [] => ([], [])
  | c :: t => if c = '.' then ([], t) else
      let p := splitDot t
      (c :: p.1, p.2)

/-- Digits around the first dot of an unsigned decimal literal: both parts
must be decimal digits and at least one digit must be present. -/
def parseDecBody (body : List Char) (sign : Int) : Option PyDecimal :=
  if (splitDot body).1.all isDecDigit = true ∧ (splitDot body).2.all isDecDigit = true
      ∧ ((splitDot body).1 ≠ [] ∨ (splitDot body).2 ≠ []) then
    some ⟨sign * (natFromChars ((splitDot body).1 ++ (splitDot body).2) : Int),
      (splitDot body).2.length⟩
  else none

/-- Parse a decimal literal with optional minus sign and optional dot, as
the Decimal(str) constructor accepts the strings built by this code;
strings such as .-5 are rejected exactly as Decimal rejects them. -/
def parseDecStr (l : List Char) : Option PyDecimal :=
  if l.head? = some '-' then parseDecBody l.tail (-1) else parseDecBody l 1

/-- Round-half-even division of natural numbers, the rounding decimal.Decimal
applies when quantizing an exact nonnegative value num/den. -/
def rheNat (num den : Nat) : Nat :=
  let q := num / den
  let r := num % den
  if 2 * r < den then q
  else if den < 2 * r then q + 1
  else if q % 2 = 0 then q else q + 1

/-- Round-half-even of the exact fraction num/den to an integer, as Python
round() does on a Decimal (ties to the even neighbour, symmetric in sign). -/
def rheFrac (num : Int) (den : Nat) : Int :=
  if num < 0 then -(rheNat num.natAbs den : Int) else (rheNat num.natAbs den : Int)

/-- Python format "{:.df}" applied to the exact value num/den of a Decimal:
round half-even to d fractional digits and render with a sign, an integer
part of at least one digit, and, when d is positive, a dot followed by
exactly d fractional digits.  Decimal quantization is exact here because
num/den is the exact value the Decimal holds. -/
def formatFixedFrac (num : Int) (den : Nat) (d : Nat) : List Char :=
  let neg := num < 0
  let a := rheNat (num.natAbs * 10 ^ d) den
  let ip := natToDecChars (a / 10 ^ d)
  let core :=
    if d = 0 then ip
    else ip ++ '.' :: leftPad '0' d (natToDecChars (a % 10 ^ d))
  if neg then '-' :: core else core

/-- Python format "{:.df}" on a Decimal given as an exact scaled pair. -/
def formatFixed (x : PyDecimal) (d : Nat) : List Char :=
  formatFixedFrac x.m (10 ^ x.e) d

/-- Python format "{:0w.df}" of the exact value num/den: as "{:.df}" but
zero-padded after the sign to a minimum total width w. -/
def formatFixedPadFrac (w : Nat) (num : Int) (den : Nat) (d : Nat) : List Char :=
  match formatFixedFrac num den d with
  | '-' :: t => '-' :: leftPad '0' (w - 1) t
  | s => leftPad '0' w s

/-- Python format "{:0wd}" of an integer: zero-padded to minimum total
width w, the sign counting toward the width. -/
def formatIntPad (w : Nat) (n : Int) : List Char :=
  if n < 0 then '-' :: leftPad '0' (w - 1) (natToDecChars n.natAbs)
  else leftPad '0' w (natToDecChars n.natAbs)

/-- Python format "{:.0f}" of an exact integer-valued Decimal, the storage
rendering the amount setters use. -/
def intToDecChars (n : Int) : List Char := formatFixedFrac n 1 0

/-- to_wei from web3utils.py: zero short-circuits to 0 (a Decimal compares
equal to 0 exactly when its coefficient is zero); otherwise format the value
with exactly decimals fractional digits and reassemble the slices
numlike[:-decimals-1] and numlike[-decimals:] into an int.  Fails (None)
where int() would reject the assembled string. -/
def to_wei (numlike : PyDecimal) (decimals : Nat) : Option Int :=
  if numlike.m = 0 then some 0
  else
    let s := formatFixed numlike decimals
    parseInt (pySliceNeg s (decimals + 1) ++ pyTailNeg s decimals)

/-- from_wei from web3utils.py: zero short-circuits to Decimal(0); otherwise
zero-pad the integer rendering to width decimals and build the Decimal from
intlike[:-decimals], a dot, and intlike[-decimals:].  Fails (None) where the
Decimal constructor would reject the assembled string. -/
def from_wei (intlike : Int) (decimals : Nat) : Option PyDecimal :=
  if intlike = 0 then some ⟨0, 0⟩
  else
    let s := formatIntPad decimals intlike
    parseDecStr (pySliceNeg s decimals ++ '.' :: pyTailNeg s decimals)

/-- get_zx_signature_from_ec_signature from zeroexutils.py: hex(v) followed
by the plain (unprefixed) hex of HexBytes(r).rjust(32) and of
HexBytes(s).rjust(32), with the constant 03 tag appended. -/
def get_zx_signature_from_ec_signature (v r s : Nat) : List Char :=
  pyHex v
    ++ bytesToHex (leftPad 0 32 (intToMinBytes r))
    ++ bytesToHex (leftPad 0 32 (intToMinBytes s))
    ++ ['0', '3']

/-- ASCII byte values of a string, the bytes a Python byte literal holds. -/
def asciiBytes (s : String) : List Nat := s.data.map Char.toNat

/-- EIP191_HEADER constant from zeroexutils.py, the two bytes 0x19 0x01. -/
def EIP191_HEADER : List Nat := [25, 1]

/-- EIP712_DOMAIN_SEPARATOR_SCHEMA_HASH from zeroexutils.py, parameterised by
the keccak primitive. -/
def EIP712_DOMAIN_SEPARATOR_SCHEMA_HASH (keccak : List Nat → List Nat) : List Nat :=
  keccak (asciiBytes "EIP712Domain(string name,string version,address verifyingContract)")

/-- EIP712_ORDER_SCHEMA_HASH from zeroexutils.py: keccak of the concatenated
Order schema byte literal. -/
def EIP712_ORDER_SCHEMA_HASH (keccak : List Nat → List Nat) : List Nat :=
  keccak (asciiBytes
    ("Order("
      ++ "address makerAddress,"
      ++ "address takerAddress,"
      ++ "address feeRecipientAddress,"
      ++ "address senderAddress,"
      ++ "uint256 makerAssetAmount,"
      ++ "uint256 takerAssetAmount,"
      ++ "uint256 makerFee,"
      ++ "uint256 takerFee,"
      ++ "uint256 expirationTimeSeconds,"
      ++ "uint256 salt,"
      ++ "bytes makerAssetData,"
      ++ "bytes takerAssetData"
      ++ ")"))

/-- EIP712_DOMAIN_STRUCT_HEADER from zeroexutils.py. -/
def EIP712_DOMAIN_STRUCT_HEADER (keccak : List Nat → List Nat) : List Nat :=
  EIP712_DOMAIN_SEPARATOR_SCHEMA_HASH keccak
    ++ keccak (asciiBytes "0x Protocol")
    ++ keccak (asciiBytes "2")

/-- A value stored in one of the json dictionaries the order model builds:
a str, an int, a bytes value, or None. -/
inductive JVal where
  | jstr (s : List Char)
  | jint (n : Int)
  | jbytes (b : List Nat)
  | jnull
deriving DecidableEq, Repr

/-- Python int() applied to a json value: identity on int, decimal-string
parse on str, a TypeError (None) on bytes and None. -/
def pyInt : JVal → Option Int
  | .jint n => some n
  | .jstr s => parseInt s
  | .jbytes _ => none
  | .jnull => none

/-- HexBytes() applied to a json value: hex parse on str, identity on bytes,
minimal big-endian bytes on a nonnegative int, a TypeError (None)
otherwise. -/
def pyHexBytes : JVal → Option (List Nat)
  | .jstr s => parseHexBytes s
  | .jbytes b => some b
  | .jint n => if n < 0 then none else some (intToMinBytes n.toNat)
  | .jnull => none

/-- int.to_bytes(32, byteorder=big): fails on a negative value or one that
does not fit in 32 bytes. -/
def toBytes32 (n : Int) : Option (List Nat) :=
  if 0 ≤ n ∧ n < (2 : Int) ^ 256 then some (natToBeBytes 32 n.toNat) else none

/-- The json dictionary ZxSignedOrder.to_json builds and
ZxSignedOrder.get_order_hash consumes; hash, signature and exchangeAddress
are present only when the corresponding include flag asked for them. -/
structure JsonOrder where
  makerAddress : JVal
  takerAddress : JVal
  feeRecipientAddress : JVal
  senderAddress : JVal
  makerAssetAmount : JVal
  takerAssetAmount : JVal
  makerFee : JVal
  takerFee : JVal
  salt : JVal
  expirationTimeSeconds : JVal
  makerAssetData : JVal
  takerAssetData : JVal
  hash : Option JVal
  signature : Option JVal
  exchangeAddress : Option JVal
deriving DecidableEq, Repr

/-- Concatenation of the four left-padded order addresses in the exact
order get_order_hash feeds them to keccak. -/
def orderAddressBytes (order : JsonOrder) : Option (List Nat) :=
  (pyHexBytes order.makerAddress).bind fun maker =>
  (pyHexBytes order.takerAddress).bind fun taker =>
  (pyHexBytes order.feeRecipientAddress).bind fun feeRecipient =>
  (pyHexBytes order.senderAddress).bind fun sender =>
  some (leftPad 0 32 maker ++ leftPad 0 32 taker
    ++ leftPad 0 32 feeRecipient ++ leftPad 0 32 sender)

/-- int(field).to_bytes(32, byteorder=big) for one json field. -/
def orderInt32 (v : JVal) : Option (List Nat) :=
  (pyInt v).bind toBytes32

/-- Concatenation of the six 32-byte big-endian integers in the exact order
get_order_hash feeds them to keccak. -/
def orderIntBytes (order : JsonOrder) : Option (List Nat) :=
  (orderInt32 order.makerAssetAmount).bind fun makerAmountB =>
  (orderInt32 order.takerAssetAmount).bind fun takerAmountB =>
  (orderInt32 order.makerFee).bind fun makerFeeB =>
  (orderInt32 order.takerFee).bind fun takerFeeB =>
  (orderInt32 order.expirationTimeSeconds).bind fun expirationB =>
  (orderInt32 order.salt).bind fun saltB =>
  some (makerAmountB ++ takerAmountB ++ makerFeeB ++ takerFeeB
    ++ expirationB ++ saltB)

/-- Keccaks of the two asset data byte strings, concatenated. -/
def orderAssetDataHashes (keccak : List Nat → List Nat) (order : JsonOrder) :
    Option (List Nat) :=
  (pyHexBytes order.makerAssetData).bind fun makerAssetDataB =>
  (pyHexBytes order.takerAssetData).bind fun takerAssetDataB =>
  some (keccak makerAssetDataB ++ keccak takerAssetDataB)

/-- ZxSignedOrder.get_order_hash from zeroexutils.py: the EIP-712 domain
struct hash over the padded exchange address, the order struct hash over the
schema hash, the four padded addresses, the six 32-byte big-endian integers
and the keccaks of the two asset data byte strings, and the final keccak of
the EIP-191 header with both struct hashes, rendered as a 0x-prefixed hex
string.  Fails (None) where the Python conversions would raise, including a
missing exchangeAddress key. -/
def get_order_hash (keccak : List Nat → List Nat) (order : JsonOrder) :
    Option (List Char) :=
  order.exchangeAddress.bind fun exchJ =>
  (pyHexBytes exchJ).bind fun exch =>
  (orderAddressBytes order).bind fun addrB =>
  (orderIntBytes order).bind fun intB =>
  (orderAssetDataHashes keccak order).bind fun assetB =>
  let domainStructHash :=
    keccak (EIP712_DOMAIN_STRUCT_HEADER keccak ++ leftPad 0 32 exch)
  let orderStructHash :=
    keccak (EIP712_ORDER_SCHEMA_HASH keccak ++ addrB ++ intB ++ assetB)
  some ('0' :: 'x' ::
    bytesToHex (keccak (EIP191_HEADER ++ domainStructHash ++ orderStructHash)))

/-- Written from the specification text of the order hash: the domain
separator is the keccak of DOMAIN_SCHEMA_HASH, the keccak of the protocol
name, the keccak of the version, and the exchange address left-zero-padded
to 32 bytes; used to compare with the source definition. -/
def specDomainSeparator (keccak : List Nat → List Nat) (exch : List Nat) :
    List Nat :=
  keccak
    (keccak (asciiBytes "EIP712Domain(string name,string version,address verifyingContract)")
      ++ keccak (asciiBytes "0x Protocol")
      ++ keccak (asciiBytes "2")
      ++ leftPad 0 32 exch)

/-- Written from the specification text of the order struct hash:
ORDER_SCHEMA_HASH followed by the four addresses each left-zero-padded to 32
bytes, the six amounts as 32-byte big-endian integers in the stated order,
then the keccaks of the two asset data byte strings. -/
def specOrderStructHash (keccak : List Nat → List Nat)
    (maker taker feeRecipient sender : List Nat)
    (makerAssetAmount takerAssetAmount makerFee takerFee
      expirationTimeSeconds salt : Nat)
    (makerAssetData takerAssetData : List Nat) : List Nat :=
  keccak
    (keccak (asciiBytes ("Order(address makerAddress,address takerAddress,"
        ++ "address feeRecipientAddress,address senderAddress,"
        ++ "uint256 makerAssetAmount,uint256 takerAssetAmount,"
        ++ "uint256 makerFee,uint256 takerFee,"
        ++ "uint256 expirationTimeSeconds,uint256 salt,"
        ++ "bytes makerAssetData,bytes takerAssetData)"))
      ++ leftPad 0 32 maker ++ leftPad 0 32 taker
      ++ leftPad 0 32 feeRecipient ++ leftPad 0 32 sender
      ++ natToBeBytes 32 makerAssetAmount ++ natToBeBytes 32 takerAssetAmount
      ++ natToBeBytes 32 makerFee ++ natToBeBytes 32 takerFee
      ++ natToBeBytes 32 expirationTimeSeconds ++ natToBeBytes 32 salt
      ++ keccak makerAssetData ++ keccak takerAssetData)

/-- Written from the specification text of the final hash: the 0x-prefixed
hex string of the keccak of 0x1901, the domain separator, and the order
struct hash. -/
def specOrderHash (keccak : List Nat → List Nat)
    (maker taker feeRecipient sender exch : List Nat)
    (makerAssetAmount takerAssetAmount makerFee takerFee
      expirationTimeSeconds salt : Nat)
    (makerAssetData takerAssetData : List Nat) : List Char :=
  '0' :: 'x' :: bytesToHex (keccak
    ([25, 1]
      ++ specDomainSeparator keccak exch
      ++ specOrderStructHash keccak maker taker feeRecipient sender
          makerAssetAmount takerAssetAmount makerFee takerFee
          expirationTimeSeconds salt makerAssetData takerAssetData))

/-- Lowercase hex digit test (the character class of RE_ADDRESS together
with the decimal digits). -/
def isLowHexDigit (c : Char) : Bool :=
  (48 ≤ c.toNat && c.toNat ≤ 57) || (97 ≤ c.toNat && c.toNat ≤ 102)

/-- RE_ADDRESS from web3utils.py applied to an already lowercased string:
an optional literal 0x followed by exactly 40 lowercase hex characters. -/
def matchesAddressRe (ls : List Char) : Bool :=
  (ls.length = 40 && ls.all isLowHexDigit)
    || (ls.take 2 = ['0', 'x'] && ls.length = 42 && (ls.drop 2).all isLowHexDigit)

/-- get_clean_address_or_throw from web3utils.py for str input: validate the
lowercased string against RE_ADDRESS, then prepend 0x only when the original
string does not already start with the exact characters 0x, and return the
string otherwise unchanged (in particular its casing is kept). -/
def get_clean_address_or_throw (address : List Char) : Option (List Char) :=
  if matchesAddressRe (address.map Char.toLower) then
    some (if address.take 2 = ['0', 'x'] then address else '0' :: 'x' :: address)
  else none

/-- Hex-digit test accepting both casings. -/
def isHexDigitCI (c : Char) : Bool := (hexDigitVal c).isSome

/-- Uppercase a character when the i-th nibble of the keccak digest is 8 or
more, as eth_utils applies the EIP-55 rule position by position. -/
def checksumChar (digest : List Nat) (i : Nat) (c : Char) : Char :=
  let byte := digest.getD (i / 2) 0
  let nibble := if i % 2 = 0 then byte / 16 else byte % 16
  if 8 ≤ nibble then c.toUpper else c

/-- to_checksum_address from eth_utils: validate the 0x-prefixed 40-hex
address, lowercase it, keccak the ascii of the lowercase hex part, and
uppercase every hex digit whose corresponding digest nibble is at least 8. -/
def to_checksum_address (keccak : List Nat → List Nat) (address : List Char) :
    Option (List Char) :=
  let ls := address.map Char.toLower
  if ls.take 2 = ['0', 'x'] ∧ ls.length = 42 ∧ (ls.drop 2).all isHexDigitCI then
    let hexPart := ls.drop 2
    let digest := keccak (hexPart.map Char.toNat)
    some ('0' :: 'x' ::
      ((hexPart.enum.map (fun p => checksumChar digest p.1 p.2))))
  else none

/-- A Python numeric operand that is either an int or a float, used to model
the num_ticks default in veil_client.py. -/
inductive PyNum where
  | pint (n : Int)
  | pfloat (q : ℚ)
deriving DecidableEq, Repr

/-- The num_ticks operand after the None check in veil_client.py: the float
literal 10000. when num_ticks is None, the int itself otherwise. -/
def numTicksOperand (num_ticks : Option Int) : PyNum :=
  match num_ticks with
  | none => .pfloat 10000
  | some n => .pint n

/-- Division of a Decimal value given as an exact fraction num/den by a
PyNum.  Python raises TypeError when a Decimal meets a float in arithmetic,
modelled as None; division by an int produces the exact quotient fraction
(the 28-significant-digit context rounding of decimal.Decimal is not
modelled; the theorems below only evaluate exact quotients). -/
def decFracDivPyNum (num : Int) (den : Nat) (x : PyNum) : Option (Int × Nat) :=
  match x with
  | .pint n => if n = 0 then none
      else some (if n < 0 then -num else num, den * n.natAbs)
  | .pfloat _ => none

/-- Multiplication of a Decimal value given as an exact fraction by a PyNum,
with the same TypeError rule for float operands. -/
def decFracMulPyNum (num : Int) (den : Nat) (x : PyNum) : Option (Int × Nat) :=
  match x with
  | .pint n => some (num * n, den)
  | .pfloat _ => none

/-- amount_to_veil_shares from veil_client.py: Decimal(amount) * 10**18
divided by num_ticks, rounded with round() and rendered with "{:.0f}". -/
def amount_to_veil_shares (amount : PyDecimal) (num_ticks : Option Int) :
    Option (List Char) :=
  (decFracDivPyNum (amount.m * 10 ^ 18) (10 ^ amount.e)
      (numTicksOperand num_ticks)).map
    (fun q => intToDecChars (rheFrac q.1 q.2))

/-- veil_price_to_eth from veil_client.py: Decimal(veil_price) divided by
num_ticks, the exact quotient as a fraction. -/
def veil_price_to_eth (veil_price : PyDecimal) (num_ticks : Option Int) :
    Option (Int × Nat) :=
  decFracDivPyNum veil_price.m (10 ^ veil_price.e) (numTicksOperand num_ticks)

/-- eth_to_veil_price from veil_client.py: Decimal(eth_price) * num_ticks,
rounded with round() and rendered with "{:.0f}". -/
def eth_to_veil_price (eth_price : PyDecimal) (num_ticks : Option Int) :
    Option (List Char) :=
  (decFracMulPyNum eth_price.m (10 ^ eth_price.e) (numTicksOperand num_ticks)).map
    (fun q => intToDecChars (rheFrac q.1 q.2))

/-- The serialized member variables of a ZxSignedOrder (the attributes whose
names end in an underscore in zeroexutils.py), together with the accidental
extra attribute the constructor creates under the name _created_at_msecs_
(modelled as uCreatedAtMsecs since Lean identifiers cannot start with an
underscore). -/
structure ZxOrderState where
  hash_ : Option (List Char)
  maker_address_ : Option (List Char)
  taker_address_ : Option (List Char)
  fee_recipient_address_ : Option (List Char)
  sender_address_ : Option (List Char)
  exchange_address_ : Option (List Char)
  maker_asset_amount_ : Option (List Char)
  taker_asset_amount_ : Option (List Char)
  maker_fee_ : Option (List Char)
  taker_fee_ : Option (List Char)
  salt_ : Option (List Char)
  expiration_time_seconds_ : Option Int
  maker_asset_data_ : Option (List Char)
  taker_asset_data_ : Option (List Char)
  signature_ : Option (List Char)
  created_at_msecs_ : Option Int
  bid_price_ : Option (List Char)
  ask_price_ : Option (List Char)
  sort_price_ : Option (List Char)
  uCreatedAtMsecs : Int
deriving DecidableEq, Repr

/-- The state right after the member initializations at the top of
ZxSignedOrder.__init__, before any keyword argument is applied. -/
def blankOrderState : ZxOrderState :=
  ⟨none, none, none, none, none, none, none, none, none, none, none,
    none, none, none, none, none, none, none, none, 0⟩

/-- The string "0" * 32 the bid price falls back to on a division error. -/
def zeros32 : List Char := List.replicate 32 '0'

/-- The string "9" * 32 the ask price falls back to on a division error. -/
def nines32 : List Char := List.replicate 32 '9'

/-- The bid price string: "{:032.18f}" of taker amount over maker amount,
with the bare except of update_bid_price mapping any failure (missing or
unparsable amount, division by a zero maker amount) to "0" * 32. -/
def computeBidStr (st : ZxOrderState) : List Char :=
  match st.maker_asset_amount_, st.taker_asset_amount_ with
  | some ms, some ts =>
    match parseInt ms, parseInt ts with
    | some m, some t =>
      if m = 0 then zeros32
      else formatFixedPadFrac 32 (if m < 0 then -t else t) m.natAbs 18
    | _, _ => zeros32
  | _, _ => zeros32

/-- The ask price string: "{:032.18f}" of maker amount over taker amount,
with the bare except of update_ask_price mapping any failure to "9" * 32. -/
def computeAskStr (st : ZxOrderState) : List Char :=
  match st.maker_asset_amount_, st.taker_asset_amount_ with
  | some ms, some ts =>
    match parseInt ms, parseInt ts with
    | some m, some t =>
      if t = 0 then nines32
      else formatFixedPadFrac 32 (if t < 0 then -m else m) t.natAbs 18
    | _, _ => nines32
  | _, _ => nines32

/-- update_bid_price from zeroexutils.py. -/
def update_bid_price (st : ZxOrderState) : ZxOrderState :=
  { st with bid_price_ := some (computeBidStr st) }

/-- update_ask_price from zeroexutils.py. -/
def update_ask_price (st : ZxOrderState) : ZxOrderState :=
  { st with ask_price_ := some (computeAskStr st) }

/-- The sentinel Decimal("9" * 32) used as the ask price default. -/
def maxSentinelDec : PyDecimal := ⟨(10 : Int) ^ 32 - 1, 0⟩

/-- The bid_price property: Decimal(bid_price_) with try_ falling back to
Decimal(0) on any failure.  Modelled from the spec: utils.miscutils.try_ is
not in the sources; per the spec the price is clamped rather than raising. -/
def bidPriceDec (st : ZxOrderState) : PyDecimal :=
  match st.bid_price_ with
  | some s => match parseDecStr s with
    | some d => d
    | none => ⟨0, 0⟩
  | none => ⟨0, 0⟩

/-- The ask_price property: Decimal(ask_price_) with try_ falling back to
Decimal("9" * 32) on any failure.  Modelled from the spec: see bidPriceDec. -/
def askPriceDec (st : ZxOrderState) : PyDecimal :=
  match st.ask_price_ with
  | some s => match parseDecStr s with
    | some d => d
    | none => maxSentinelDec
  | none => maxSentinelDec

/-- The maker_address setter: None stores None, otherwise the cleaned
address is stored (raising, modelled as None, on an invalid address). -/
def set_maker_address (st : ZxOrderState) (value : Option (List Char)) :
    Option ZxOrderState :=
  match value with
  | none => some { st with maker_address_ := none }
  | some s => (get_clean_address_or_throw s).map
      (fun a => { st with maker_address_ := some a })

/-- The taker_address setter. -/
def set_taker_address (st : ZxOrderState) (value : Option (List Char)) :
    Option ZxOrderState :=
  match value with
  | none => some { st with taker_address_ := none }
  | some s => (get_clean_address_or_throw s).map
      (fun a => { st with taker_address_ := some a })

/-- The fee_recipient_address setter. -/
def set_fee_recipient_address (st : ZxOrderState) (value : Option (List Char)) :
    Option ZxOrderState :=
  match value with
  | none => some { st with fee_recipient_address_ := none }
  | some s => (get_clean_address_or_throw s).map
      (fun a => { st with fee_recipient_address_ := some a })

/-- The sender_address setter. -/
def set_sender_address (st : ZxOrderState) (value : Option (List Char)) :
    Option ZxOrderState :=
  match value with
  | none => some { st with sender_address_ := none }
  | some s => (get_clean_address_or_throw s).map
      (fun a => { st with sender_address_ := some a })

/-- The exchange_address setter. -/
def set_exchange_address (st : ZxOrderState) (value : Option (List Char)) :
    Option ZxOrderState :=
  match value with
  | none => some { st with exchange_address_ := none }
  | some s => (get_clean_address_or_throw s).map
      (fun a => { st with exchange_address_ := some a })

/-- The maker_asset_amount setter: validate the integer-like value, store
"{:.0f}".format(Decimal(value)), then recompute both derived prices.
Modelled from the spec: utils.miscutils.assert_like_integer is not in the
sources; per the spec the economic-amount setters reject negative or
non-integer-like input, so an Int value below zero fails here.  Note the
setter does not touch hash_. -/
def set_maker_asset_amount (st : ZxOrderState) (value : Int) :
    Option ZxOrderState :=
  if value < 0 then none
  else
    let st1 := { st with maker_asset_amount_ := some (intToDecChars value) }
    some (update_ask_price (update_bid_price st1))

/-- The taker_asset_amount setter; see set_maker_asset_amount. -/
def set_taker_asset_amount (st : ZxOrderState) (value : Int) :
    Option ZxOrderState :=
  if value < 0 then none
  else
    let st1 := { st with taker_asset_amount_ := some (intToDecChars value) }
    some (update_ask_price (update_bid_price st1))

/-- The maker_fee setter (no price recomputation). -/
def set_maker_fee (st : ZxOrderState) (value : Int) : Option ZxOrderState :=
  if value < 0 then none
  else some { st with maker_fee_ := some (intToDecChars value) }

/-- The taker_fee setter (no price recomputation). -/
def set_taker_fee (st : ZxOrderState) (value : Int) : Option ZxOrderState :=
  if value < 0 then none
  else some { st with taker_fee_ := some (intToDecChars value) }

/-- The salt setter. -/
def set_salt (st : ZxOrderState) (value : Int) : Option ZxOrderState :=
  if value < 0 then none
  else some { st with salt_ := some (intToDecChars value) }

/-- The expiration_time_seconds setter:
int("{:.0f}".format(Decimal(value))) for the numeric value num/den, modelled
as round-half-even of the exact value (the sub-millisecond rounding of the
binary float division in the constructor default is not modelled). -/
def set_expiration_time_seconds (st : ZxOrderState) (num : Int) (den : Nat) :
    ZxOrderState :=
  { st with expiration_time_seconds_ := some (rheFrac num den) }

/-- The maker_asset_data setter: None stores None, otherwise
HexBytes(value).hex() is stored (a lowercase 0x-prefixed rendering). -/
def set_maker_asset_data (st : ZxOrderState) (value : Option (List Char)) :
    Option ZxOrderState :=
  match value with
  | none => some { st with maker_asset_data_ := none }
  | some s => (parseHexBytes s).map
      (fun bs => { st with maker_asset_data_ := some ('0' :: 'x' :: bytesToHex bs) })

/-- The taker_asset_data setter. -/
def set_taker_asset_data (st : ZxOrderState) (value : Option (List Char)) :
    Option ZxOrderState :=
  match value with
  | none => some { st with taker_asset_data_ := none }
  | some s => (parseHexBytes s).map
      (fun bs => { st with taker_asset_data_ := some ('0' :: 'x' :: bytesToHex bs) })

/-- A stored optional string as it lands in a storage-mode json dict (None
stays None). -/
def jvalOfOptStr (o : Option (List Char)) : JVal :=
  match o with
  | some s => .jstr s
  | none => .jnull

/-- A stored optional int as it lands in a storage-mode json dict. -/
def jvalOfOptInt (o : Option Int) : JVal :=
  match o with
  | some n => .jint n
  | none => .jnull

/-- The four checksummed address fields of the for_web3 branch of to_json;
to_checksum_address raises (None) on a missing or malformed stored value. -/
def web3AddressFields (keccak : List Nat → List Nat) (st : ZxOrderState) :
    Option (JVal × JVal × JVal × JVal) :=
  (st.maker_address_.bind (to_checksum_address keccak)).bind fun maker =>
  (st.taker_address_.bind (to_checksum_address keccak)).bind fun taker =>
  (st.fee_recipient_address_.bind (to_checksum_address keccak)).bind fun feeRecipient =>
  (st.sender_address_.bind (to_checksum_address keccak)).bind fun sender =>
  some (.jstr maker, .jstr taker, .jstr feeRecipient, .jstr sender)

/-- The five int(...) fields of the for_web3 branch of to_json; int raises
(None) on a missing stored value. -/
def web3IntFields (st : ZxOrderState) :
    Option (JVal × JVal × JVal × JVal × JVal) :=
  (st.maker_asset_amount_.bind parseInt).bind fun makerAmount =>
  (st.taker_asset_amount_.bind parseInt).bind fun takerAmount =>
  (st.maker_fee_.bind parseInt).bind fun makerFee =>
  (st.taker_fee_.bind parseInt).bind fun takerFee =>
  (st.salt_.bind parseInt).bind fun salt =>
  some (.jint makerAmount, .jint takerAmount, .jint makerFee,
    .jint takerFee, .jint salt)

/-- The two HexBytes(...) asset data fields of the for_web3 branch. -/
def web3DataFields (st : ZxOrderState) : Option (JVal × JVal) :=
  (st.maker_asset_data_.bind parseHexBytes).bind fun makerData =>
  (st.taker_asset_data_.bind parseHexBytes).bind fun takerData =>
  some (.jbytes makerData, .jbytes takerData)

/-- The signature entry: storage mode stores the raw member (possibly None),
for_web3 mode stores HexBytes(signature) and raises (None) when missing. -/
def jsonSignatureEntry (st : ZxOrderState) (for_web3 : Bool) : Option JVal :=
  if for_web3 then (st.signature_.bind parseHexBytes).map .jbytes
  else some (jvalOfOptStr st.signature_)

/-- The exchangeAddress entry: storage mode stores the raw member, for_web3
mode stores HexBytes(exchange_address_) and raises (None) when missing. -/
def jsonExchangeEntry (st : ZxOrderState) (for_web3 : Bool) : Option JVal :=
  if for_web3 then (st.exchange_address_.bind parseHexBytes).map .jbytes
  else some (jvalOfOptStr st.exchange_address_)

/-- ZxSignedOrder.to_json without the include_hash branch (split out so the
lazy hash property, which itself serializes with include_hash False, is not
recursive).  include_exchange_address None resolves to False for web3 and
True for storage, exactly as in the source. -/
def toJsonNoHash (keccak : List Nat → List Nat) (st : ZxOrderState)
    (include_signature : Bool) (include_exchange_address : Option Bool)
    (for_web3 : Bool) : Option JsonOrder :=
  let inclEx := include_exchange_address.getD (if for_web3 then false else true)
  if for_web3 then
    (web3AddressFields keccak st).bind fun addrs =>
    (web3IntFields st).bind fun ints =>
    (web3DataFields st).bind fun datas =>
    (st.expiration_time_seconds_.map JVal.jint).bind fun expiration =>
    (if include_signature then (jsonSignatureEntry st true).map some else some none).bind
      fun sigEntry =>
    (if inclEx then (jsonExchangeEntry st true).map some else some none).map
      fun exchEntry =>
      { makerAddress := addrs.1, takerAddress := addrs.2.1,
        feeRecipientAddress := addrs.2.2.1, senderAddress := addrs.2.2.2,
        makerAssetAmount := ints.1, takerAssetAmount := ints.2.1,
        makerFee := ints.2.2.1, takerFee := ints.2.2.2.1,
        salt := ints.2.2.2.2, expirationTimeSeconds := expiration,
        makerAssetData := datas.1, takerAssetData := datas.2,
        hash := none, signature := sigEntry, exchangeAddress := exchEntry }
  else
    some
      { makerAddress := jvalOfOptStr st.maker_address_,
        takerAddress := jvalOfOptStr st.taker_address_,
        feeRecipientAddress := jvalOfOptStr st.fee_recipient_address_,
        senderAddress := jvalOfOptStr st.sender_address_,
        makerAssetAmount := jvalOfOptStr st.maker_asset_amount_,
        takerAssetAmount := jvalOfOptStr st.taker_asset_amount_,
        makerFee := jvalOfOptStr st.maker_fee_,
        takerFee := jvalOfOptStr st.taker_fee_,
        salt := jvalOfOptStr st.salt_,
        expirationTimeSeconds := jvalOfOptInt st.expiration_time_seconds_,
        makerAssetData := jvalOfOptStr st.maker_asset_data_,
        takerAssetData := jvalOfOptStr st.taker_asset_data_,
        hash := none,
        signature := if include_signature then some (jvalOfOptStr st.signature_) else none,
        exchangeAddress := if inclEx then some (jvalOfOptStr st.exchange_address_) else none }

/-- The hash computation update_hash performs:
get_order_hash(to_json()) with the default to_json arguments (storage mode,
no hash, with signature, with exchange address). -/
def computeOrderHash (keccak : List Nat → List Nat) (st : ZxOrderState) :
    Option (List Char) :=
  (toJsonNoHash keccak st true none false).bind (get_order_hash keccak)

/-- update_hash from zeroexutils.py: store the computed hash (the failing
case propagates as None). -/
def update_hash (keccak : List Nat → List Nat) (st : ZxOrderState) :
    Option ZxOrderState :=
  (computeOrderHash keccak st).map (fun h => { st with hash_ := some h })

/-- The value the lazy hash property returns: the cached hash_ when present,
otherwise the recomputation result, with try_ swallowing a failure so that
None is returned.  Modelled from the spec: utils.miscutils.try_ is not in
the sources. -/
def hashVal (keccak : List Nat → List Nat) (st : ZxOrderState) :
    Option (List Char) :=
  match st.hash_ with
  | some h => some h
  | none => computeOrderHash keccak st

/-- ZxSignedOrder.to_json including the include_hash branch. -/
def toJson (keccak : List Nat → List Nat) (st : ZxOrderState)
    (include_hash include_signature : Bool)
    (include_exchange_address : Option Bool) (for_web3 : Bool) :
    Option JsonOrder :=
  (toJsonNoHash keccak st include_signature include_exchange_address for_web3).bind
    fun j =>
      if include_hash then
        if for_web3 then
          ((hashVal keccak st).bind parseHexBytes).map
            (fun hb => { j with hash := some (.jbytes hb) })
        else some { j with hash := some (jvalOfOptStr (hashVal keccak st)) }
      else some j

/-- Keyword arguments of ZxSignedOrder.__init__; a missing key is None. -/
structure ZxOrderKwargs where
  created_at_msecs : Option Int := none
  hash : Option (List Char) := none
  maker_address : Option (List Char) := none
  taker_address : Option (List Char) := none
  fee_recipient_address : Option (List Char) := none
  sender_address : Option (List Char) := none
  exchange_address : Option (List Char) := none
  maker_asset_amount : Option Int := none
  taker_asset_amount : Option Int := none
  maker_fee : Option Int := none
  taker_fee : Option Int := none
  salt : Option Int := none
  expiration_time_seconds : Option Int := none
  maker_asset_data : Option (List Char) := none
  taker_asset_data : Option (List Char) := none
  signature : Option (List Char) := none
deriving Repr

/-- Python x or d for an optional int (0 is falsy). -/
def pyOrInt (o : Option Int) (d : Int) : Int :=
  match o with
  | some v => if v = 0 then d else v
  | none => d

/-- Python x or d for an optional string (the empty string is falsy). -/
def pyOrStr (o : Option (List Char)) (d : List Char) : List Char :=
  match o with
  | some s => if s = [] then d else s
  | none => d

/-- Python x or None for an optional string. -/
def pyOrNone (o : Option (List Char)) : Option (List Char) :=
  match o with
  | some s => if s = [] then none else some s
  | none => none

/-- NULL_ADDRESS from web3utils.py. -/
def NULL_ADDRESS : List Char :=
  strChars "0x0000000000000000000000000000000000000000"

/-- The five address assignments of ZxSignedOrder.__init__, each defaulting
to NULL_ADDRESS, in source order. -/
def initAddresses (st : ZxOrderState) (kw : ZxOrderKwargs) :
    Option ZxOrderState :=
  (set_maker_address st (some (pyOrStr kw.maker_address NULL_ADDRESS))).bind fun st1 =>
  (set_taker_address st1 (some (pyOrStr kw.taker_address NULL_ADDRESS))).bind fun st2 =>
  (set_fee_recipient_address st2 (some (pyOrStr kw.fee_recipient_address NULL_ADDRESS))).bind fun st3 =>
  (set_sender_address st3 (some (pyOrStr kw.sender_address NULL_ADDRESS))).bind fun st4 =>
  set_exchange_address st4 (some (pyOrStr kw.exchange_address NULL_ADDRESS))

/-- The amount, fee and salt assignments of ZxSignedOrder.__init__, each
defaulting to "0", in source order (maker amount, taker amount, taker fee,
maker fee, salt). -/
def initAmounts (st : ZxOrderState) (kw : ZxOrderKwargs) :
    Option ZxOrderState :=
  (set_maker_asset_amount st (pyOrInt kw.maker_asset_amount 0)).bind fun st1 =>
  (set_taker_asset_amount st1 (pyOrInt kw.taker_asset_amount 0)).bind fun st2 =>
  (set_taker_fee st2 (pyOrInt kw.taker_fee 0)).bind fun st3 =>
  (set_maker_fee st3 (pyOrInt kw.maker_fee 0)).bind fun st4 =>
  set_salt st4 (pyOrInt kw.salt 0)

/-- The asset data assignments of ZxSignedOrder.__init__, each defaulting to
None. -/
def initAssetData (st : ZxOrderState) (kw : ZxOrderKwargs) :
    Option ZxOrderState :=
  (set_maker_asset_data st (pyOrNone kw.maker_asset_data)).bind fun st1 =>
  set_taker_asset_data st1 (pyOrNone kw.taker_asset_data)

/-- The default expiration value of ZxSignedOrder.__init__, already rounded
as the setter rounds it: the creation time in milliseconds divided by the
float 1000. plus 60 has the exact value (createdAtMsecs + 60000) / 1000 (the
binary float rounding below a microsecond is not modelled). -/
def defaultExpirationSecs (createdAtMsecs : Int) : Int :=
  rheFrac (createdAtMsecs + 60000) 1000

/-- ZxSignedOrder.__init__ from zeroexutils.py: all serialized members start
as None; the creation time (the keyword value or now) is written to the
accidental attribute _created_at_msecs_ while created_at_msecs_ stays None;
then the keyword arguments and defaults flow through the setters in source
order.  The now argument models the now_epoch_msecs() call. -/
def zxOrderInit (now : Int) (kw : ZxOrderKwargs) : Option ZxOrderState :=
  let created := pyOrInt kw.created_at_msecs now
  let st0 := { blankOrderState with
    uCreatedAtMsecs := created,
    hash_ := pyOrNone kw.hash }
  (initAddresses st0 kw).bind fun st1 =>
  (initAmounts st1 kw).bind fun st2 =>
  let st3 :=
    match kw.expiration_time_seconds with
    | some v =>
        if v = 0 then set_expiration_time_seconds st2 (created + 60000) 1000
        else set_expiration_time_seconds st2 v 1
    | none => set_expiration_time_seconds st2 (created + 60000) 1000
  (initAssetData st3 kw).bind fun st4 =>
  some { st4 with signature_ := pyOrNone kw.signature }

theorem charToNat_ofNat (n : Nat) (h : n < 55296) : (Char.ofNat n).toNat = n := by
  have hv : n.isValidChar := Or.inl h
  rw [Char.ofNat, dif_pos hv]
  simp [Char.ofNatAux, Char.toNat, UInt32.toNat, BitVec.toNat_ofNatLt]

theorem digitsLE_zero (b : Nat) : ∀ f, digitsLE b f 0 = [] := by
  intro f
  cases f <;> simp [digitsLE]

theorem digitsLE_fuel (b : Nat) (hb : 2 ≤ b) :
    ∀ f g n, n ≤ f → n ≤ g → digitsLE b f n = digitsLE b g n := by
  intro f
  induction f with
  | zero =>
    intro g n hf _
    have : n = 0 := Nat.le_zero.mp hf
    subst this
    simp [digitsLE_zero]
  | succ f ih =>
    intro g n hf hg
    by_cases hn : n = 0
    · subst hn; simp [digitsLE_zero]
    · cases g with
      | zero => omega
      | succ g =>
        have hdiv : n / b < n := Nat.div_lt_self (Nat.pos_of_ne_zero hn) (by omega)
        simp only [digitsLE, if_neg hn]
        rw [ih g (n / b) (by omega) (by omega)]

theorem foldl_mulAdd (b : Nat) {α : Type} (g : α → Nat) :
    ∀ (l : List α) (acc : Nat),
      l.foldl (fun a x => a * b + g x) acc
        = acc * b ^ l.length + l.foldl (fun a x => a * b + g x) 0 := by
  intro l
  induction l with
  | nil => intro acc; simp
  | cons x t ih =>
    intro acc
    simp only [List.foldl_cons, List.length_cons]
    rw [ih (acc * b + g x), ih (0 * b + g x)]
    ring

theorem ofDigitsBE_digitsLE (b : Nat) (hb : 2 ≤ b) :
    ∀ f n, n ≤ f → ofDigitsBE b (digitsLE b f n).reverse = n := by
  intro f
  induction f with
  | zero =>
    intro n hf
    have : n = 0 := Nat.le_zero.mp hf
    subst this
    simp [digitsLE_zero, ofDigitsBE]
  | succ f ih =>
    intro n hf
    by_cases hn : n = 0
    · subst hn; simp [digitsLE_zero, ofDigitsBE]
    · have hdiv : n / b < n := Nat.div_lt_self (Nat.pos_of_ne_zero hn) (by omega)
      simp only [digitsLE, if_neg hn, List.reverse_cons]
      unfold ofDigitsBE
      rw [List.foldl_append]
      have := ih (n / b) (by omega)
      unfold ofDigitsBE at this
      rw [this]
      simp only [List.foldl_cons, List.foldl_nil]
      rw [Nat.mul_comm]
      exact Nat.div_add_mod n b

theorem digitsLE_length_le (b : Nat) (hb : 2 ≤ b) :
    ∀ f n k, n < b ^ k → (digitsLE b f n).length ≤ k := by
  intro f
  induction f with
  | zero => intro n k _; simp [digitsLE]
  | succ f ih =>
    intro n k hk
    by_cases hn : n = 0
    · subst hn; simp [digitsLE_zero]
    · cases k with
      | zero => simp at hk; omega
      | succ k =>
        simp only [digitsLE, if_neg hn, List.length_cons]
        have hdivlt : n / b < b ^ k := by
          apply Nat.div_lt_of_lt_mul
          rw [Nat.mul_comm]
          rw [Nat.pow_succ] at hk
          exact hk
        have := ih (n / b) k hdivlt
        omega

theorem digitsLE_mem_lt (b : Nat) (hb : 0 < b) :
    ∀ f n d, d ∈ digitsLE b f n → d < b := by
  intro f
  induction f with
  | zero => intro n d hd; simp [digitsLE] at hd
  | succ f ih =>
    intro n d hd
    by_cases hn : n = 0
    · subst hn; rw [digitsLE_zero] at hd; simp at hd
    · simp only [digitsLE, if_neg hn, List.mem_cons] at hd
      rcases hd with h | h
      · subst h; exact Nat.mod_lt _ hb
      · exact ih _ _ h

theorem renderDigitsBE_val (b : Nat) (hb : 2 ≤ b) (n : Nat) :
    ofDigitsBE b (renderDigitsBE b n) = n :=
  ofDigitsBE_digitsLE b hb n n (Nat.le_refl n)

theorem renderDigitsBE_length_le (b : Nat) (hb : 2 ≤ b) (n k : Nat)
    (h : n < b ^ k) : (renderDigitsBE b n).length ≤ k := by
  unfold renderDigitsBE
  rw [List.length_reverse]
  exact digitsLE_length_le b hb n n k h

theorem renderDigitsBE_mem_lt (b : Nat) (hb : 0 < b) (n d : Nat)
    (h : d ∈ renderDigitsBE b n) : d < b := by
  unfold renderDigitsBE at h
  rw [List.mem_reverse] at h
  exact digitsLE_mem_lt b hb n n d h

theorem natFromChars_map_digits_aux (l : List Nat) (h : ∀ d ∈ l, d < 10) :
    ∀ acc : Nat,
      (l.map (fun d => Char.ofNat (48 + d))).foldl (fun a c => a * 10 + (c.toNat - 48)) acc
        = l.foldl (fun a d => a * 10 + d) acc := by
  induction l with
  | nil => intro acc; simp
  | cons d t ih =>
    intro acc
    have hd : d < 10 := h d (List.mem_cons_self d t)
    have hchar : (Char.ofNat (48 + d)).toNat = 48 + d :=
      charToNat_ofNat (48 + d) (by omega)
    have ht : ∀ x ∈ t, x < 10 := fun x hx => h x (List.mem_cons_of_mem d hx)
    simp only [List.map_cons, List.foldl_cons, hchar]
    rw [ih ht]
    congr 1
    omega

theorem natFromChars_map_digits (l : List Nat) (h : ∀ d ∈ l, d < 10) :
    natFromChars (l.map (fun d => Char.ofNat (48 + d))) = ofDigitsBE 10 l := by
  unfold natFromChars ofDigitsBE
  exact natFromChars_map_digits_aux l h 0

theorem natToDecChars_val (n : Nat) : natFromChars (natToDecChars n) = n := by
  unfold natToDecChars
  by_cases hn : n = 0
  · subst hn; decide
  · rw [if_neg hn]
    rw [natFromChars_map_digits _ (fun d hd => renderDigitsBE_mem_lt 10 (by omega) n d hd)]
    exact renderDigitsBE_val 10 (by omega) n

theorem natToDecChars_all_digits (n : Nat) :
    (natToDecChars n).all isDecDigit = true := by
  unfold natToDecChars
  by_cases hn : n = 0
  · subst hn; decide
  · rw [if_neg hn]
    rw [List.all_eq_true]
    intro c hc
    rw [List.mem_map] at hc
    obtain ⟨d, hd, rfl⟩ := hc
    have hdlt : d < 10 := renderDigitsBE_mem_lt 10 (by omega) n d hd
    have hchar : (Char.ofNat (48 + d)).toNat = 48 + d :=
      charToNat_ofNat (48 + d) (by omega)
    unfold isDecDigit
    rw [hchar]
    simp only [Bool.and_eq_true, decide_eq_true_eq]
    omega

theorem natToDecChars_length_le (n k : Nat) (h1 : n < 10 ^ k) (h2 : 1 ≤ k) :
    (natToDecChars n).length ≤ k := by
  unfold natToDecChars
  by_cases hn : n = 0
  · subst hn; simpa using h2
  · rw [if_neg hn]
    rw [List.length_map]
    exact renderDigitsBE_length_le 10 (by omega) n k h1

theorem natToDecChars_ne_nil (n : Nat) : natToDecChars n ≠ [] := by
  unfold natToDecChars
  by_cases hn : n = 0
  · subst hn; simp
  · rw [if_neg hn]
    simp only [ne_eq, List.map_eq_nil_iff]
    unfold renderDigitsBE
    simp only [List.reverse_eq_nil_iff]
    cases hN : n with
    | zero => omega
    | succ m =>
      simp [digitsLE]

theorem natFromChars_foldl_acc :
    ∀ (l : List Char) (acc : Nat),
      l.foldl (fun a c => a * 10 + (c.toNat - 48)) acc
        = acc * 10 ^ l.length + natFromChars l := by
  intro l
  induction l with
  | nil => intro acc; simp [natFromChars]
  | cons c t ih =>
    intro acc
    simp only [List.foldl_cons, List.length_cons, natFromChars] at *
    rw [ih (acc * 10 + (c.toNat - 48)), ih (0 * 10 + (c.toNat - 48))]
    ring

theorem natFromChars_append (a c : List Char) :
    natFromChars (a ++ c) = natFromChars a * 10 ^ c.length + natFromChars c := by
  have h := natFromChars_foldl_acc c (natFromChars a)
  unfold natFromChars at *
  rw [List.foldl_append]
  exact h

theorem natFromChars_replicate_zero (k : Nat) :
    natFromChars (List.replicate k '0') = 0 := by
  induction k with
  | zero => rfl
  | succ k ih =>
    unfold natFromChars at *
    rw [List.replicate_succ, List.foldl_cons]
    simpa using ih

theorem natFromChars_leftPad (w : Nat) (l : List Char) :
    natFromChars (leftPad '0' w l) = natFromChars l := by
  unfold leftPad
  rw [natFromChars_append, natFromChars_replicate_zero]
  simp

theorem all_digits_leftPad (w : Nat) (l : List Char)
    (h : l.all isDecDigit = true) : (leftPad '0' w l).all isDecDigit = true := by
  unfold leftPad
  rw [List.all_append, h]
  rw [Bool.and_true]
  rw [List.all_eq_true]
  intro c hc
  rw [List.mem_replicate] at hc
  rw [hc.2]
  decide

theorem head_not_minus_of_digits (l : List Char) (h : l.all isDecDigit = true) :
    l.head? ≠ some '-' := by
  cases l with
  | nil => simp
  | cons c t =>
    simp only [List.head?_cons, ne_eq, Option.some.injEq]
    intro hc
    subst hc
    rw [List.all_cons] at h
    simp [isDecDigit] at h

theorem parseNatStr_of_digits (l : List Char) (hne : l ≠ [])
    (h : l.all isDecDigit = true) : parseNatStr l = some (natFromChars l) := by
  unfold parseNatStr
  rw [if_pos ⟨hne, h⟩]

theorem parseInt_of_digits (l : List Char) (hne : l ≠ [])
    (h : l.all isDecDigit = true) :
    parseInt l = some ((natFromChars l : Nat) : Int) := by
  unfold parseInt
  rw [if_neg (head_not_minus_of_digits l h)]
  rw [parseNatStr_of_digits l hne h]
  simp

theorem parseInt_natToDecChars (n : Nat) :
    parseInt (natToDecChars n) = some ((n : Nat) : Int) := by
  rw [parseInt_of_digits _ (natToDecChars_ne_nil n) (natToDecChars_all_digits n)]
  rw [natToDecChars_val]

theorem bytesToHex_append (a c : List Nat) :
    bytesToHex (a ++ c) = bytesToHex a ++ bytesToHex c := by
  unfold bytesToHex
  rw [List.foldr_append]
  induction a with
  | nil => simp
  | cons x t ih => simp [ih]

theorem hexFixed_length (w n : Nat) : (hexFixed w n).length = w := by
  induction w generalizing n with
  | zero => rfl
  | succ w ih => simp [hexFixed, ih]

theorem natToBeBytes_zero (k : Nat) : natToBeBytes k 0 = List.replicate k 0 := by
  induction k with
  | zero => rfl
  | succ k ih =>
    show natToBeBytes k (0 / 256) ++ [0 % 256] = List.replicate (k + 1) 0
    rw [Nat.zero_div, ih]
    rw [List.replicate_succ']

theorem renderDigitsBE_step (b n : Nat) (hb : 2 ≤ b) (hn : n ≠ 0) :
    renderDigitsBE b n = renderDigitsBE b (n / b) ++ [n % b] := by
  unfold renderDigitsBE
  have hpos : 0 < n := Nat.pos_of_ne_zero hn
  cases hN : n with
  | zero => omega
  | succ m =>
    show (digitsLE b (m + 1) (m + 1)).reverse = _
    rw [show digitsLE b (m + 1) (m + 1) = (m + 1) % b :: digitsLE b m ((m + 1) / b) from rfl]
    rw [List.reverse_cons]
    have hdiv : (m + 1) / b < m + 1 := Nat.div_lt_self (by omega) (by omega)
    rw [digitsLE_fuel b hb m ((m + 1) / b) ((m + 1) / b) (by omega) (by omega)]

theorem leftPad_renderDigitsBE (k : Nat) :
    ∀ n, n < 256 ^ k → leftPad 0 k (renderDigitsBE 256 n) = natToBeBytes k n := by
  induction k with
  | zero =>
    intro n hn
    have h0 : n = 0 := by omega
    subst h0
    rfl
  | succ k ih =>
    intro n hn
    by_cases h0 : n = 0
    · subst h0
      show leftPad 0 (k + 1) (renderDigitsBE 256 0) = _
      rw [natToBeBytes_zero]
      simp [leftPad, renderDigitsBE, digitsLE]
    · have hdivlt : n / 256 < 256 ^ k := by
        apply Nat.div_lt_of_lt_mul
        rw [Nat.mul_comm]
        rw [Nat.pow_succ] at hn
        exact hn
      rw [renderDigitsBE_step 256 n (by omega) h0]
      show leftPad 0 (k + 1) _ = natToBeBytes k (n / 256) ++ [n % 256]
      rw [← ih (n / 256) hdivlt]
      unfold leftPad
      rw [List.length_append]
      have hcount : k + 1 - ((renderDigitsBE 256 (n / 256)).length + [n % 256].length)
          = k - (renderDigitsBE 256 (n / 256)).length := by
        simp only [List.length_cons, List.length_nil]
        omega
      rw [hcount, ← List.append_assoc]

theorem bytesToHex_natToBeBytes (k : Nat) :
    ∀ n, bytesToHex (natToBeBytes k n) = hexFixed (2 * k) n := by
  induction k with
  | zero => intro n; rfl
  | succ k ih =>
    intro n
    show bytesToHex (natToBeBytes k (n / 256) ++ [n % 256]) = hexFixed (2 * (k + 1)) n
    rw [bytesToHex_append, ih (n / 256)]
    have hsingle : bytesToHex [n % 256]
        = [hexChar (n % 256 / 16), hexChar (n % 256 % 16)] := rfl
    have hrhs : hexFixed (2 * (k + 1)) n
        = hexFixed (2 * k) (n / 16 / 16) ++ [hexChar (n / 16 % 16)] ++ [hexChar (n % 16)] := by
      rw [show 2 * (k + 1) = 2 * k + 1 + 1 from by omega]
      rfl
    have hd : n / 16 / 16 = n / 256 := by omega
    have hm1 : n % 256 / 16 = n / 16 % 16 := by omega
    have hm2 : n % 256 % 16 = n % 16 := by omega
    rw [hsingle, hrhs]
    simp [hd, hm1, hm2, List.append_assoc]

theorem leftPad_intToMinBytes (k n : Nat) (hk : 1 ≤ k) (hn : n < 256 ^ k) :
    leftPad 0 k (intToMinBytes n) = natToBeBytes k n := by
  by_cases h0 : n = 0
  · subst h0
    rw [natToBeBytes_zero]
    unfold intToMinBytes leftPad
    rw [if_pos rfl]
    simp only [List.length_cons, List.length_nil]
    cases k with
    | zero => omega
    | succ k =>
      rw [show k + 1 - (0 + 1) = k from by omega]
      rw [← List.replicate_succ']
  · unfold intToMinBytes
    rw [if_neg h0]
    exact leftPad_renderDigitsBE k n hn

theorem hex32_eq_hexFixed64 (n : Nat) (hn : n < 2 ^ 256) :
    bytesToHex (leftPad 0 32 (intToMinBytes n)) = hexFixed 64 n := by
  have h256 : n < 256 ^ 32 := by
    have hpw : (256 : Nat) ^ 32 = 2 ^ 256 := by norm_num
    omega
  rw [leftPad_intToMinBytes 32 n (by omega) h256]
  have h := bytesToHex_natToBeBytes 32 n
  simpa using h

/-- C3: the packed wire signature is hex(v) (the 0x-prefixed minimal
hexadecimal rendering Python hex produces), then r and s each as exactly 64
left-zero-padded hex characters with no 0x prefix, then the literal 03; it
therefore ends in 03 and its length is len(hex(v)) + 128 + 2. -/
theorem zx_signature_layout (v r s : Nat) (hv : v = 27 ∨ v = 28)
    (hr : r < 2 ^ 256) (hs : s < 2 ^ 256) :
    get_zx_signature_from_ec_signature v r s
        = pyHex v ++ hexFixed 64 r ++ hexFixed 64 s ++ ['0', '3']
      ∧ (get_zx_signature_from_ec_signature v r s).length
          = (pyHex v).length + 128 + 2
      ∧ (get_zx_signature_from_ec_signature v r s).drop
          ((get_zx_signature_from_ec_signature v r s).length - 2) = ['0', '3'] := by
  have heq : get_zx_signature_from_ec_signature v r s
      = pyHex v ++ hexFixed 64 r ++ hexFixed 64 s ++ ['0', '3'] := by
    unfold get_zx_signature_from_ec_signature
    rw [hex32_eq_hexFixed64 r hr, hex32_eq_hexFixed64 s hs]
  have hlen : (get_zx_signature_from_ec_signature v r s).length
      = (pyHex v).length + 128 + 2 := by
    rw [heq]
    simp [List.length_append, hexFixed_length]
  refine ⟨heq, hlen, ?_⟩
  rw [heq]
  have hlen3 : (pyHex v ++ hexFixed 64 r ++ hexFixed 64 s ++ ['0', '3']).length - 2
      = (pyHex v ++ hexFixed 64 r ++ hexFixed 64 s).length := by
    simp [List.length_append, hexFixed_length]
  rw [hlen3]
  rw [show pyHex v ++ hexFixed 64 r ++ hexFixed 64 s ++ ['0', '3']
      = (pyHex v ++ hexFixed 64 r ++ hexFixed 64 s) ++ ['0', '3'] from by
    simp [List.append_assoc]]
  exact List.drop_left _ _

/-- Witness for zx_signature_layout at v = 27, r = 1, s = 2. -/
theorem zx_signature_layout_witness :
    (27 = 27 ∨ 27 = 28)
      ∧ (get_zx_signature_from_ec_signature 27 1 2
            = pyHex 27 ++ hexFixed 64 1 ++ hexFixed 64 2 ++ ['0', '3']
          ∧ (get_zx_signature_from_ec_signature 27 1 2).length
              = (pyHex 27).length + 128 + 2
          ∧ (get_zx_signature_from_ec_signature 27 1 2).drop
              ((get_zx_signature_from_ec_signature 27 1 2).length - 2) = ['0', '3']) :=
  ⟨Or.inl rfl, zx_signature_layout 27 1 2 (Or.inl rfl) (by norm_num) (by norm_num)⟩

theorem leftPad_length {α : Type} (c : α) (w : Nat) (l : List α) :
    (leftPad c w l).length = (w - l.length) + l.length := by
  unfold leftPad
  simp [List.length_append, List.length_replicate]

theorem all_of_take {p : Char → Bool} {l : List Char} (n : Nat)
    (h : l.all p = true) : (l.take n).all p = true := by
  rw [List.all_eq_true] at *
  intro c hc
  exact h c (List.take_subset n l hc)

theorem all_of_drop {p : Char → Bool} {l : List Char} (n : Nat)
    (h : l.all p = true) : (l.drop n).all p = true := by
  rw [List.all_eq_true] at *
  intro c hc
  exact h c (List.drop_subset n l hc)

theorem digit_ne_dot {c : Char} (h : isDecDigit c = true) : c ≠ '.' := by
  intro hc
  subst hc
  simp [isDecDigit] at h

theorem splitDot_of_no_dot :
    ∀ (a b : List Char), (∀ c ∈ a, c ≠ '.') → splitDot (a ++ '.' :: b) = (a, b) := by
  intro a
  induction a with
  | nil =>
    intro b _
    simp [splitDot]
  | cons c t ih =>
    intro b h
    have hc : c ≠ '.' := h c (List.mem_cons_self c t)
    simp only [List.cons_append, splitDot, if_neg hc]
    have hih := ih b (fun x hx => h x (List.mem_cons_of_mem c hx))
    simp only [List.append_eq] at hih ⊢
    rw [hih]

theorem rheNat_one (n : Nat) : rheNat n 1 = n := by
  simp [rheNat, Nat.mod_one, Nat.div_one]

theorem rheNat_exact (num den : Nat) (hden : 0 < den) (hdvd : den ∣ num) :
    rheNat num den = num / den := by
  unfold rheNat
  have hmod : num % den = 0 := Nat.dvd_iff_mod_eq_zero.mp hdvd
  rw [hmod]
  rw [if_pos (by omega : 2 * 0 < den)]

theorem formatFixed_exact (m e d : Nat) (he : e ≤ d) (hd : d ≠ 0) :
    formatFixed ⟨(m : Int), e⟩ d
      = natToDecChars ((m * 10 ^ (d - e)) / 10 ^ d)
        ++ '.' :: leftPad '0' d (natToDecChars ((m * 10 ^ (d - e)) % 10 ^ d)) := by
  unfold formatFixed formatFixedFrac
  have hneg : ¬ ((⟨(m : Int), e⟩ : PyDecimal).m < 0) := by
    show ¬ ((m : Int) < 0)
    omega
  rw [if_neg hneg, if_neg hd]
  have hnabs : ((⟨(m : Int), e⟩ : PyDecimal).m).natAbs = m := Int.natAbs_ofNat m
  rw [hnabs]
  have hdvd : (10 : Nat) ^ e ∣ m * 10 ^ d :=
    Dvd.dvd.mul_left (pow_dvd_pow 10 he) m
  have ha : rheNat (m * 10 ^ d) ((⟨(m : Int), e⟩ : PyDecimal).e |> (10 ^ ·))
      = m * 10 ^ (d - e) := by
    show rheNat (m * 10 ^ d) (10 ^ e) = m * 10 ^ (d - e)
    rw [rheNat_exact _ _ (by positivity) hdvd]
    rw [show (10 : Nat) ^ d = 10 ^ (d - e) * 10 ^ e from by
      rw [← pow_add]
      congr 1
      omega]
    rw [← Nat.mul_assoc]
    exact Nat.mul_div_cancel _ (by positivity)
  rw [show ((⟨(m : Int), e⟩ : PyDecimal).e |> (10 ^ ·)) = (10 : Nat) ^ e from rfl] at ha
  rw [ha]

theorem heads_not_minus (a b : List Char) (h : a.all isDecDigit = true) :
    (a ++ '.' :: b).head? ≠ some '-' := by
  cases a with
  | nil => simp
  | cons c t =>
    simp only [List.cons_append, List.head?_cons, ne_eq, Option.some.injEq]
    intro hc
    subst hc
    rw [List.all_cons] at h
    simp [isDecDigit] at h

theorem to_wei_eval (m e d : Nat) (hm : m ≠ 0) (he : e ≤ d) (hd : 1 ≤ d) :
    to_wei ⟨(m : Int), e⟩ d = some (((m * 10 ^ (d - e) : Nat) : Int)) := by
  have hr : m * 10 ^ (d - e) ≠ 0 := by
    have hpow : 0 < 10 ^ (d - e) := Nat.pos_pow_of_pos _ (by omega)
    have hmp : 0 < m := Nat.pos_of_ne_zero hm
    have : 0 < m * 10 ^ (d - e) := Nat.mul_pos hmp hpow
    omega
  set r := m * 10 ^ (d - e) with hrdef
  unfold to_wei
  rw [if_neg (show ¬ ((⟨(m : Int), e⟩ : PyDecimal).m = 0) from by
    show ¬ ((m : Int) = 0)
    exact_mod_cast hm)]
  have hfmt : formatFixed ⟨(m : Int), e⟩ d
      = natToDecChars (r / 10 ^ d)
        ++ '.' :: leftPad '0' d (natToDecChars (r % 10 ^ d)) := by
    rw [hrdef]
    exact formatFixed_exact m e d he (by omega)
  rw [hfmt]
  set ip := natToDecChars (r / 10 ^ d) with hip
  set F := leftPad '0' d (natToDecChars (r % 10 ^ d)) with hF
  have hFlen : F.length = d := by
    rw [hF, leftPad_length]
    have hlt : r % 10 ^ d < 10 ^ d := Nat.mod_lt _ (by positivity)
    have := natToDecChars_length_le (r % 10 ^ d) d hlt hd
    omega
  have hslen : (ip ++ '.' :: F).length = ip.length + 1 + d := by
    simp [List.length_append, hFlen]
    omega
  have hslice : pySliceNeg (ip ++ '.' :: F) (d + 1) = ip := by
    unfold pySliceNeg
    rw [if_neg (by omega)]
    rw [hslen]
    rw [show ip.length + 1 + d - (d + 1) = ip.length from by omega]
    exact List.take_left ip ('.' :: F)
  have htail : pyTailNeg (ip ++ '.' :: F) d = F := by
    unfold pyTailNeg
    rw [if_neg (by omega)]
    rw [hslen]
    rw [show ip.length + 1 + d - d = (ip ++ ['.']).length from by
      simp [List.length_append]]
    rw [show ip ++ '.' :: F = (ip ++ ['.']) ++ F from by simp]
    exact List.drop_left _ _
  show parseInt (pySliceNeg (ip ++ '.' :: F) (d + 1) ++ pyTailNeg (ip ++ '.' :: F) d)
      = some ((r : Nat) : Int)
  rw [hslice, htail]
  have hdig : (ip ++ F).all isDecDigit = true := by
    rw [List.all_append]
    rw [hip, hF]
    rw [natToDecChars_all_digits, all_digits_leftPad _ _ (natToDecChars_all_digits _)]
    rfl
  have hne : ip ++ F ≠ [] := by
    intro hcontra
    have := natToDecChars_ne_nil (r / 10 ^ d)
    rw [hip] at hcontra
    rcases List.append_eq_nil.mp hcontra with ⟨h1, _⟩
    exact this h1
  rw [parseInt_of_digits _ hne hdig]
  congr 1
  rw [natFromChars_append, hFlen, hip, hF]
  rw [natFromChars_leftPad, natToDecChars_val, natToDecChars_val]
  rw [Nat.div_add_mod']

theorem from_wei_eval (r d : Nat) (hr : r ≠ 0) (hd : 1 ≤ d) :
    from_wei ((r : Nat) : Int) d = some ⟨((r : Nat) : Int), d⟩ := by
  unfold from_wei
  rw [if_neg (by exact_mod_cast hr)]
  have hfmt : formatIntPad d ((r : Nat) : Int) = leftPad '0' d (natToDecChars r) := by
    unfold formatIntPad
    rw [if_neg (by omega)]
    rw [Int.natAbs_ofNat]
  rw [hfmt]
  set s2 := leftPad '0' d (natToDecChars r) with hs2
  have halls : s2.all isDecDigit = true :=
    all_digits_leftPad d _ (natToDecChars_all_digits r)
  have hL : d ≤ s2.length := by
    rw [hs2, leftPad_length]
    omega
  have hslice : pySliceNeg s2 d = s2.take (s2.length - d) := by
    unfold pySliceNeg
    rw [if_neg (by omega)]
  have htail : pyTailNeg s2 d = s2.drop (s2.length - d) := by
    unfold pyTailNeg
    rw [if_neg (by omega)]
  show parseDecStr (pySliceNeg s2 d ++ '.' :: pyTailNeg s2 d) = _
  rw [hslice, htail]
  set a := s2.take (s2.length - d) with ha
  set b := s2.drop (s2.length - d) with hb
  have hadig : a.all isDecDigit = true := all_of_take _ halls
  have hbdig : b.all isDecDigit = true := all_of_drop _ halls
  have hblen : b.length = d := by
    rw [hb, List.length_drop]
    omega
  have hbne : b ≠ [] := by
    intro hcontra
    rw [hcontra] at hblen
    simp at hblen
    omega
  unfold parseDecStr
  rw [if_neg (heads_not_minus a b hadig)]
  have hsplit : splitDot (a ++ '.' :: b) = (a, b) := by
    apply splitDot_of_no_dot
    intro c hc
    rw [List.all_eq_true] at hadig
    exact digit_ne_dot (hadig c hc)
  unfold parseDecBody
  rw [hsplit]
  rw [if_pos ⟨hadig, hbdig, Or.inr hbne⟩]
  have hab : a ++ b = s2 := List.take_append_drop _ s2
  simp only
  rw [hab, hblen]
  rw [hs2, natFromChars_leftPad, natToDecChars_val]
  simp

theorem pyDecEq_scaled (m e d : Nat) (he : e ≤ d) :
    pyDecEq ⟨((m * 10 ^ (d - e) : Nat) : Int), d⟩ ⟨(m : Int), e⟩ = true := by
  unfold pyDecEq
  rw [beq_iff_eq]
  show ((m * 10 ^ (d - e) : Nat) : Int) * 10 ^ e = (m : Int) * 10 ^ d
  push_cast
  rw [mul_assoc, ← pow_add]
  congr 2
  omega

/-- C2 (amended): for a nonnegative decimal value with at most d fractional
digits and 1 ≤ d ≤ 18, from_wei after to_wei returns a Decimal comparing
equal to the original value. -/
theorem to_wei_from_wei_roundtrip (m e d : Nat) (he : e ≤ d) (hd1 : 1 ≤ d)
    (hd18 : d ≤ 18) :
    ((to_wei ⟨(m : Int), e⟩ d).bind (fun n => from_wei n d)).map
        (fun y => pyDecEq y ⟨(m : Int), e⟩) = some true := by
  by_cases hm : m = 0
  · subst hm
    unfold to_wei
    rw [if_pos (show ((⟨((0 : Nat) : Int), e⟩ : PyDecimal)).m = 0 from by
      show ((0 : Nat) : Int) = 0
      norm_num)]
    show (from_wei 0 d).map (fun y => pyDecEq y ⟨((0 : Nat) : Int), e⟩) = some true
    unfold from_wei
    rw [if_pos rfl]
    show some (pyDecEq ⟨0, 0⟩ ⟨((0 : Nat) : Int), e⟩) = some true
    simp [pyDecEq]
  · rw [to_wei_eval m e d hm he hd1]
    have hr : m * 10 ^ (d - e) ≠ 0 := by
      have hpow : 0 < 10 ^ (d - e) := Nat.pos_pow_of_pos _ (by omega)
      have hmp : 0 < m := Nat.pos_of_ne_zero hm
      have hpos : 0 < m * 10 ^ (d - e) := Nat.mul_pos hmp hpow
      omega
    show (from_wei ((m * 10 ^ (d - e) : Nat) : Int) d).map
        (fun y => pyDecEq y ⟨(m : Int), e⟩) = some true
    rw [from_wei_eval _ d hr hd1]
    rw [Option.map_some']
    rw [pyDecEq_scaled m e d he]

/-- Witness for to_wei_from_wei_roundtrip at the value 1.5 (15 over 10) with
d = 2. -/
theorem to_wei_from_wei_roundtrip_witness :
    ((to_wei ⟨((15 : Nat) : Int), 1⟩ 2).bind (fun n => from_wei n 2)).map
        (fun y => pyDecEq y ⟨((15 : Nat) : Int), 1⟩) = some true :=
  to_wei_from_wei_roundtrip 15 1 2 (by omega) (by omega) (by omega)

/-- C2 counterexample: at d = 0 (allowed by the claim, which covers
0 ≤ d ≤ 18) the round trip fails on the integer value 123: to_wei mangles
the string slices into 12123 and from_wei then turns 12123 into 0.12123,
which does not compare equal to 123. -/
theorem to_wei_from_wei_d0_counterexample :
    to_wei ⟨(123 : Int), 0⟩ 0 = some 12123
      ∧ ((to_wei ⟨(123 : Int), 0⟩ 0).bind (fun n => from_wei n 0)).map
          (fun y => pyDecEq y ⟨(123 : Int), 0⟩) ≠ some true := by
  constructor
  · decide
  · decide

theorem char_eq_of_toNat_eq {a b : Char} (h : a.toNat = b.toNat) : a = b := by
  apply Char.ext
  unfold Char.toNat at h
  exact UInt32.toNat.inj h

theorem toLower_toNat (c : Char) :
    (Char.toLower c).toNat
      = if 65 ≤ c.toNat ∧ c.toNat ≤ 90 then c.toNat + 32 else c.toNat := by
  unfold Char.toLower
  by_cases h : 65 ≤ c.toNat ∧ c.toNat ≤ 90
  · rw [if_pos (by exact_mod_cast h), if_pos h]
    have hle : c.toNat ≤ 90 := h.2
    exact charToNat_ofNat (c.toNat + 32) (by omega)
  · rw [if_neg (by exact_mod_cast h), if_neg h]

theorem toLower_eq_zero_char {c : Char} (h : Char.toLower c = '0') : c = '0' := by
  have hn := congrArg Char.toNat h
  rw [toLower_toNat] at hn
  apply char_eq_of_toNat_eq
  by_cases hb : 65 ≤ c.toNat ∧ c.toNat ≤ 90
  · rw [if_pos hb] at hn
    exfalso
    have : ('0' : Char).toNat = 48 := rfl
    omega
  · rw [if_neg hb] at hn
    exact hn

theorem toLower_eq_x_char {c : Char} (h : Char.toLower c = 'x') :
    c = 'x' ∨ c = 'X' := by
  have hn := congrArg Char.toNat h
  rw [toLower_toNat] at hn
  by_cases hb : 65 ≤ c.toNat ∧ c.toNat ≤ 90
  · rw [if_pos hb] at hn
    right
    apply char_eq_of_toNat_eq
    have : ('x' : Char).toNat = 120 := rfl
    have hX : ('X' : Char).toNat = 88 := rfl
    omega
  · rw [if_neg hb] at hn
    left
    exact char_eq_of_toNat_eq hn

theorem toLower_ne_X (c : Char) : Char.toLower c ≠ 'X' := by
  intro h
  have hn := congrArg Char.toNat h
  rw [toLower_toNat] at hn
  have hX : ('X' : Char).toNat = 88 := rfl
  by_cases hb : 65 ≤ c.toNat ∧ c.toNat ≤ 90
  · rw [if_pos hb] at hn
    omega
  · rw [if_neg hb] at hn
    exact hb ⟨by omega, by omega⟩

theorem isHexDigitCI_of_isLowHex_toLower {c : Char}
    (h : isLowHexDigit (Char.toLower c) = true) : isHexDigitCI c = true := by
  unfold isLowHexDigit at h
  rw [toLower_toNat] at h
  unfold isHexDigitCI hexDigitVal
  simp only [Bool.or_eq_true, Bool.and_eq_true, decide_eq_true_eq] at h
  by_cases hb : 65 ≤ c.toNat ∧ c.toNat ≤ 90
  · rw [if_pos hb] at h
    have hrange : 65 ≤ c.toNat ∧ c.toNat ≤ 70 := by omega
    rw [if_neg (by omega : ¬ (48 ≤ c.toNat ∧ c.toNat ≤ 57))]
    rw [if_neg (by omega : ¬ (97 ≤ c.toNat ∧ c.toNat ≤ 102))]
    rw [if_pos hrange]
    rfl
  · rw [if_neg hb] at h
    rcases h with h | h
    · rw [if_pos h]
      rfl
    · rw [if_neg (by omega : ¬ (48 ≤ c.toNat ∧ c.toNat ≤ 57))]
      rw [if_pos h]
      rfl

/-- The normalized address shape the spec asserts for stored addresses:
lowercase, 0x-prefixed, 40 hex characters. -/
def isNormalizedAddr (t : List Char) : Bool :=
  (t.take 2 == ['0', 'x']) && (t.length == 42) && (t.drop 2).all isLowHexDigit

/-- C7 counterexample: the maker_address setter accepts an uppercase-digit
address and stores it with its casing intact, so the stored value is not the
normalized lowercase form the claim asserts. -/
theorem clean_address_not_lowercased_counterexample :
    (set_maker_address blankOrderState
        (some ('0' :: 'x' :: List.replicate 40 'A'))).map
        (fun st => st.maker_address_)
      = some (some ('0' :: 'x' :: List.replicate 40 'A'))
    ∧ isNormalizedAddr ('0' :: 'x' :: List.replicate 40 'A') = false := by
  constructor
  · decide
  · decide

theorem set_maker_address_some (st : ZxOrderState) (s : List Char) :
    set_maker_address st (some s)
      = (get_clean_address_or_throw s).map
          (fun a => { st with maker_address_ := some a }) := rfl

/-- C7 (amended): an address accepted by an address setter, when its prefix,
if present, is the exact characters 0x, is stored as a 42-character
0x-prefixed string of hex digits valid in either casing, with the input
casing preserved (the prefix is added when missing; the digits are not
lowercased). -/
theorem clean_address_shape (st : ZxOrderState) (s : List Char)
    (st2 : ZxOrderState)
    (hset : set_maker_address st (some s) = some st2)
    (hpfx : s.take 2 = ['0', 'x'] ∨ s.length = 40) :
    ∃ t, st2.maker_address_ = some t
      ∧ t.take 2 = ['0', 'x'] ∧ t.length = 42
      ∧ (t.drop 2).all isHexDigitCI = true
      ∧ (t = s ∨ t = '0' :: 'x' :: s) := by
  rw [set_maker_address_some] at hset
  unfold get_clean_address_or_throw at hset
  by_cases hm : matchesAddressRe (s.map Char.toLower) = true
  · rw [if_pos hm] at hset
    simp only [Option.map_some', Option.some.injEq] at hset
    have hmaker : st2.maker_address_
        = some (if s.take 2 = ['0', 'x'] then s else '0' :: 'x' :: s) := by
      rw [← hset]
    unfold matchesAddressRe at hm
    simp only [Bool.or_eq_true, Bool.and_eq_true, decide_eq_true_eq,
      List.length_map] at hm
    have hallCI : ∀ l : List Char,
        (l.map Char.toLower).all isLowHexDigit = true →
        l.all isHexDigitCI = true := by
      intro l hl
      rw [List.all_eq_true] at *
      intro c hc
      exact isHexDigitCI_of_isLowHex_toLower
        (hl (Char.toLower c) (List.mem_map_of_mem Char.toLower hc))
    rcases hm with ⟨hlen, hhex⟩ | ⟨⟨hpfx2, hlen⟩, hhex⟩
    · have hnotpfx : ¬ s.take 2 = ['0', 'x'] := by
        intro htake
        have hx : 'x' ∈ s := by
          have hmem : 'x' ∈ s.take 2 := by rw [htake]; simp
          exact List.mem_of_mem_take hmem
        have hxm : Char.toLower 'x' ∈ s.map Char.toLower :=
          List.mem_map_of_mem Char.toLower hx
        rw [List.all_eq_true] at hhex
        have hbad := hhex _ hxm
        simp [isLowHexDigit, Char.toLower] at hbad
      rw [if_neg hnotpfx] at hmaker
      refine ⟨'0' :: 'x' :: s, hmaker, rfl, by simp [hlen], ?_, Or.inr rfl⟩
      show s.all isHexDigitCI = true
      exact hallCI s hhex
    · have hs2 : s.take 2 = ['0', 'x'] := by
        rcases hpfx with h | h
        · exact h
        · omega
      rw [if_pos hs2] at hmaker
      refine ⟨s, hmaker, hs2, by omega, ?_, Or.inl rfl⟩
      have hdrop : (s.drop 2).map Char.toLower = (s.map Char.toLower).drop 2 :=
        List.map_drop Char.toLower s 2
      apply hallCI
      rw [hdrop]
      exact hhex
  · rw [if_neg hm] at hset
    simp at hset

/-- Witness for clean_address_shape on a fresh order and an uppercase-digit
address without prefix. -/
theorem clean_address_shape_witness :
    (List.replicate 40 'B').length = 40
      ∧ ∃ st2, set_maker_address blankOrderState
            (some (List.replicate 40 'B')) = some st2
          ∧ ∃ t, st2.maker_address_ = some t
              ∧ t.take 2 = ['0', 'x'] ∧ t.length = 42
              ∧ (t.drop 2).all isHexDigitCI = true
              ∧ (t = List.replicate 40 'B'
                  ∨ t = '0' :: 'x' :: List.replicate 40 'B') := by
  refine ⟨by decide, ?_⟩
  have hset : set_maker_address blankOrderState (some (List.replicate 40 'B'))
      = some { blankOrderState with
            maker_address_ := some ('0' :: 'x' :: List.replicate 40 'B') } := by
    decide
  exact ⟨_, hset, clean_address_shape blankOrderState (List.replicate 40 'B') _
    hset (Or.inr (by decide))⟩

theorem hexDigitVal_toLower (c : Char) :
    hexDigitVal (Char.toLower c) = hexDigitVal c := by
  unfold hexDigitVal
  rw [toLower_toNat]
  by_cases hb : 65 ≤ c.toNat ∧ c.toNat ≤ 90
  · rw [if_pos hb]
    by_cases h1 : 65 ≤ c.toNat ∧ c.toNat ≤ 70
    · rw [if_neg (by omega : ¬ (48 ≤ c.toNat + 32 ∧ c.toNat + 32 ≤ 57))]
      rw [if_pos (by omega : 97 ≤ c.toNat + 32 ∧ c.toNat + 32 ≤ 102)]
      rw [if_neg (by omega : ¬ (48 ≤ c.toNat ∧ c.toNat ≤ 57))]
      rw [if_neg (by omega : ¬ (97 ≤ c.toNat ∧ c.toNat ≤ 102))]
      rw [if_pos h1]
      congr 1
      try omega
    · rw [if_neg (by omega : ¬ (48 ≤ c.toNat + 32 ∧ c.toNat + 32 ≤ 57))]
      rw [if_neg (by omega : ¬ (97 ≤ c.toNat + 32 ∧ c.toNat + 32 ≤ 102))]
      rw [if_neg (by omega : ¬ (65 ≤ c.toNat + 32 ∧ c.toNat + 32 ≤ 70))]
      rw [if_neg (by omega : ¬ (48 ≤ c.toNat ∧ c.toNat ≤ 57))]
      rw [if_neg (by omega : ¬ (97 ≤ c.toNat ∧ c.toNat ≤ 102))]
      rw [if_neg (by omega : ¬ (65 ≤ c.toNat ∧ c.toNat ≤ 70))]
  · rw [if_neg hb]

theorem hexPairsToBytes_toLower :
    ∀ (n : Nat) (l : List Char), l.length ≤ n →
      hexPairsToBytes (l.map Char.toLower) = hexPairsToBytes l := by
  intro n
  induction n with
  | zero =>
    intro l hl
    have : l = [] := List.length_eq_zero.mp (by omega)
    subst this
    rfl
  | succ n ih =>
    intro l hl
    match l with
    | [] => rfl
    | [c] => rfl
    | c1 :: c2 :: rest =>
      show hexPairsToBytes (Char.toLower c1 :: Char.toLower c2 :: rest.map Char.toLower)
          = hexPairsToBytes (c1 :: c2 :: rest)
      unfold hexPairsToBytes
      rw [hexDigitVal_toLower c1, hexDigitVal_toLower c2]
      have hrest : rest.length ≤ n := by
        simp only [List.length_cons] at hl
        omega
      rw [ih rest hrest]

theorem parseHexBytes_toLower (s : List Char) :
    parseHexBytes (s.map Char.toLower) = parseHexBytes s := by
  have hpair : ∀ l : List Char,
      hexPairsToBytes (l.map Char.toLower) = hexPairsToBytes l :=
    fun l => hexPairsToBytes_toLower l.length l (Nat.le_refl _)
  have hpadPair : ∀ l : List Char,
      hexPairsToBytes (padEven (l.map Char.toLower)) = hexPairsToBytes (padEven l) := by
    intro l
    unfold padEven
    rw [List.length_map]
    by_cases hodd : l.length % 2 = 1
    · rw [if_pos hodd, if_pos hodd]
      exact hpair ('0' :: l)
    · rw [if_neg hodd, if_neg hodd]
      exact hpair l
  match s with
  | [] => rfl
  | [c] =>
    show hexPairsToBytes (padEven (stripHexPfx [Char.toLower c]))
        = hexPairsToBytes (padEven (stripHexPfx [c]))
    rw [show stripHexPfx [Char.toLower c] = [Char.toLower c] from rfl]
    rw [show stripHexPfx [c] = [c] from rfl]
    exact hpadPair [c]
  | c0 :: c1 :: rest =>
    have hcond : (Char.toLower c0 = '0' ∧ (Char.toLower c1 = 'x' ∨ Char.toLower c1 = 'X'))
        ↔ (c0 = '0' ∧ (c1 = 'x' ∨ c1 = 'X')) := by
      constructor
      · rintro ⟨h0, hx⟩
        refine ⟨toLower_eq_zero_char h0, ?_⟩
        rcases hx with hx | hx
        · exact toLower_eq_x_char hx
        · exact absurd hx (toLower_ne_X c1)
      · rintro ⟨h0, hx⟩
        subst h0
        refine ⟨by decide, ?_⟩
        rcases hx with hx | hx <;> subst hx
        · left; decide
        · left; decide
    show hexPairsToBytes (padEven (stripHexPfx
          (Char.toLower c0 :: Char.toLower c1 :: rest.map Char.toLower)))
        = hexPairsToBytes (padEven (stripHexPfx (c0 :: c1 :: rest)))
    rw [show stripHexPfx (Char.toLower c0 :: Char.toLower c1 :: rest.map Char.toLower)
        = if Char.toLower c0 = '0' ∧ (Char.toLower c1 = 'x' ∨ Char.toLower c1 = 'X')
          then rest.map Char.toLower
          else Char.toLower c0 :: Char.toLower c1 :: rest.map Char.toLower from rfl]
    rw [show stripHexPfx (c0 :: c1 :: rest)
        = if c0 = '0' ∧ (c1 = 'x' ∨ c1 = 'X') then rest else c0 :: c1 :: rest from rfl]
    by_cases hc : c0 = '0' ∧ (c1 = 'x' ∨ c1 = 'X')
    · rw [if_pos hc, if_pos (hcond.mpr hc)]
      exact hpadPair rest
    · rw [if_neg hc, if_neg (fun h => hc (hcond.mp h))]
      exact hpadPair (c0 :: c1 :: rest)

theorem parseHexBytes_casing (a b : List Char)
    (h : a.map Char.toLower = b.map Char.toLower) :
    parseHexBytes a = parseHexBytes b := by
  rw [← parseHexBytes_toLower a, h, parseHexBytes_toLower b]

/-- C5: for any json order, replacing the five address fields by strings
with the same characters up to letter casing (equal after lowercasing)
leaves get_order_hash unchanged, because HexBytes decodes hex digits
case-insensitively. -/
theorem order_hash_casing_invariant (keccak : List Nat → List Nat)
    (j : JsonOrder) (ma ta fa sa ea ma2 ta2 fa2 sa2 ea2 : List Char)
    (hma : ma2.map Char.toLower = ma.map Char.toLower)
    (hta : ta2.map Char.toLower = ta.map Char.toLower)
    (hfa : fa2.map Char.toLower = fa.map Char.toLower)
    (hsa : sa2.map Char.toLower = sa.map Char.toLower)
    (hea : ea2.map Char.toLower = ea.map Char.toLower) :
    get_order_hash keccak
        { j with
          makerAddress := JVal.jstr ma2,
          takerAddress := JVal.jstr ta2,
          feeRecipientAddress := JVal.jstr fa2,
          senderAddress := JVal.jstr sa2,
          exchangeAddress := some (JVal.jstr ea2) }
      = get_order_hash keccak
          { j with
            makerAddress := JVal.jstr ma,
            takerAddress := JVal.jstr ta,
            feeRecipientAddress := JVal.jstr fa,
            senderAddress := JVal.jstr sa,
            exchangeAddress := some (JVal.jstr ea) } := by
  have h1 : parseHexBytes ma2 = parseHexBytes ma := parseHexBytes_casing _ _ hma
  have h2 : parseHexBytes ta2 = parseHexBytes ta := parseHexBytes_casing _ _ hta
  have h3 : parseHexBytes fa2 = parseHexBytes fa := parseHexBytes_casing _ _ hfa
  have h4 : parseHexBytes sa2 = parseHexBytes sa := parseHexBytes_casing _ _ hsa
  have h5 : parseHexBytes ea2 = parseHexBytes ea := parseHexBytes_casing _ _ hea
  unfold get_order_hash orderAddressBytes orderIntBytes orderAssetDataHashes
  simp only [pyHexBytes, Option.some_bind, h1, h2, h3, h4, h5]

/-- A concrete function used only to instantiate the keccak parameter in
witnesses and counterexamples (the hashing layer is parametric in the
primitive, so any function of the right type exercises it). -/
def witnessKeccak (bs : List Nat) : List Nat :=
  [bs.length % 256, (bs.foldl (fun a b => a + b) 0) % 256]

/-- A concrete json order with null addresses, zero amounts and short asset
data, used by witnesses. -/
def sampleJsonOrder : JsonOrder :=
  { makerAddress := JVal.jstr (strChars "0x0000000000000000000000000000000000000000"),
    takerAddress := JVal.jstr (strChars "0x0000000000000000000000000000000000000000"),
    feeRecipientAddress := JVal.jstr (strChars "0x0000000000000000000000000000000000000000"),
    senderAddress := JVal.jstr (strChars "0x0000000000000000000000000000000000000000"),
    makerAssetAmount := .jint 0, takerAssetAmount := .jint 0,
    makerFee := .jint 0, takerFee := .jint 0, salt := .jint 0,
    expirationTimeSeconds := .jint 0,
    makerAssetData := JVal.jstr (strChars "0x"),
    takerAssetData := JVal.jstr (strChars "0x"),
    hash := none, signature := none,
    exchangeAddress := some (JVal.jstr (strChars "0x0000000000000000000000000000000000000000")) }

/-- Witness for order_hash_casing_invariant: an all-lowercase and an
all-uppercase rendering of the same letter-only address digits. -/
theorem order_hash_casing_invariant_witness :
    (('0' :: 'x' :: List.replicate 40 'A').map Char.toLower
        = ('0' :: 'x' :: List.replicate 40 'a').map Char.toLower)
      ∧ get_order_hash witnessKeccak
            { sampleJsonOrder with
              makerAddress := JVal.jstr ('0' :: 'x' :: List.replicate 40 'A'),
              takerAddress := JVal.jstr ('0' :: 'x' :: List.replicate 40 'A'),
              feeRecipientAddress := JVal.jstr ('0' :: 'x' :: List.replicate 40 'A'),
              senderAddress := JVal.jstr ('0' :: 'x' :: List.replicate 40 'A'),
              exchangeAddress := some (JVal.jstr ('0' :: 'x' :: List.replicate 40 'A')) }
          = get_order_hash witnessKeccak
              { sampleJsonOrder with
                makerAddress := JVal.jstr ('0' :: 'x' :: List.replicate 40 'a'),
                takerAddress := JVal.jstr ('0' :: 'x' :: List.replicate 40 'a'),
                feeRecipientAddress := JVal.jstr ('0' :: 'x' :: List.replicate 40 'a'),
                senderAddress := JVal.jstr ('0' :: 'x' :: List.replicate 40 'a'),
                exchangeAddress := some (JVal.jstr ('0' :: 'x' :: List.replicate 40 'a')) } :=
  ⟨by decide,
    order_hash_casing_invariant witnessKeccak sampleJsonOrder
      _ _ _ _ _ _ _ _ _ _
      (by decide) (by decide) (by decide) (by decide) (by decide)⟩

theorem toBytes32_nat (n : Nat) (h : n < 2 ^ 256) :
    toBytes32 ((n : Nat) : Int) = some (natToBeBytes 32 n) := by
  unfold toBytes32
  rw [if_pos ⟨Int.natCast_nonneg n, by exact_mod_cast h⟩]
  rw [Int.toNat_ofNat]

/-- C1: on a json order whose address and asset-data fields are valid hex
strings (the addresses 20 bytes) and whose numeric fields are nonnegative
integers below 2^256, get_order_hash returns exactly the 0x-prefixed hex of
Keccak256(0x1901 || domain_separator || order_struct_hash) with the domain
separator and the order struct hash laid out as the specification states
them (specOrderHash, specDomainSeparator, specOrderStructHash are written
from the specification text). -/
theorem get_order_hash_matches_spec (keccak : List Nat → List Nat)
    (j : JsonOrder)
    (ma ta fa sa ea mad tad : List Char)
    (maB taB faB saB eaB madB tadB : List Nat)
    (mam tam mf tf expir salt : Nat)
    (hma : j.makerAddress = JVal.jstr ma)
    (hta : j.takerAddress = JVal.jstr ta)
    (hfa : j.feeRecipientAddress = JVal.jstr fa)
    (hsa : j.senderAddress = JVal.jstr sa)
    (hexch : j.exchangeAddress = some (JVal.jstr ea))
    (hmaP : parseHexBytes ma = some maB) (hmaL : maB.length = 20)
    (htaP : parseHexBytes ta = some taB) (htaL : taB.length = 20)
    (hfaP : parseHexBytes fa = some faB) (hfaL : faB.length = 20)
    (hsaP : parseHexBytes sa = some saB) (hsaL : saB.length = 20)
    (heaP : parseHexBytes ea = some eaB) (heaL : eaB.length = 20)
    (hmad : j.makerAssetData = JVal.jstr mad)
    (htad : j.takerAssetData = JVal.jstr tad)
    (hmadP : parseHexBytes mad = some madB)
    (htadP : parseHexBytes tad = some tadB)
    (hmam : j.makerAssetAmount = JVal.jint ((mam : Nat) : Int)) (hmamB : mam < 2 ^ 256)
    (htam : j.takerAssetAmount = JVal.jint ((tam : Nat) : Int)) (htamB : tam < 2 ^ 256)
    (hmf : j.makerFee = JVal.jint ((mf : Nat) : Int)) (hmfB : mf < 2 ^ 256)
    (htf : j.takerFee = JVal.jint ((tf : Nat) : Int)) (htfB : tf < 2 ^ 256)
    (hexp : j.expirationTimeSeconds = JVal.jint ((expir : Nat) : Int))
    (hexpB : expir < 2 ^ 256)
    (hsalt : j.salt = JVal.jint ((salt : Nat) : Int)) (hsaltB : salt < 2 ^ 256) :
    get_order_hash keccak j
      = some (specOrderHash keccak maB taB faB saB eaB
          mam tam mf tf expir salt madB tadB) := by
  have hAddr : orderAddressBytes j
      = some (leftPad 0 32 maB ++ leftPad 0 32 taB
          ++ leftPad 0 32 faB ++ leftPad 0 32 saB) := by
    unfold orderAddressBytes
    rw [hma, hta, hfa, hsa]
    simp only [pyHexBytes]
    rw [hmaP, htaP, hfaP, hsaP]
    simp only [Option.some_bind]
  have hOne : ∀ (n : Nat), n < 2 ^ 256 →
      orderInt32 (JVal.jint ((n : Nat) : Int)) = some (natToBeBytes 32 n) := by
    intro n hn
    unfold orderInt32
    rw [show pyInt (JVal.jint ((n : Nat) : Int)) = some ((n : Nat) : Int) from rfl]
    rw [Option.some_bind]
    exact toBytes32_nat n hn
  have hInt : orderIntBytes j
      = some (natToBeBytes 32 mam ++ natToBeBytes 32 tam
          ++ natToBeBytes 32 mf ++ natToBeBytes 32 tf
          ++ natToBeBytes 32 expir ++ natToBeBytes 32 salt) := by
    unfold orderIntBytes
    rw [hmam, htam, hmf, htf, hexp, hsalt]
    rw [hOne mam hmamB, hOne tam htamB, hOne mf hmfB,
      hOne tf htfB, hOne expir hexpB, hOne salt hsaltB]
    rfl
  have hAsset : orderAssetDataHashes keccak j
      = some (keccak madB ++ keccak tadB) := by
    unfold orderAssetDataHashes
    rw [hmad, htad]
    simp only [pyHexBytes]
    rw [hmadP, htadP]
    simp only [Option.some_bind]
  have hschemaB : EIP712_ORDER_SCHEMA_HASH keccak
      = keccak (asciiBytes ("Order(address makerAddress,address takerAddress,"
        ++ "address feeRecipientAddress,address senderAddress,"
        ++ "uint256 makerAssetAmount,uint256 takerAssetAmount,"
        ++ "uint256 makerFee,uint256 takerFee,"
        ++ "uint256 expirationTimeSeconds,uint256 salt,"
        ++ "bytes makerAssetData,bytes takerAssetData)")) :=
    congrArg keccak (by decide)
  have hdom : keccak (EIP712_DOMAIN_STRUCT_HEADER keccak ++ leftPad 0 32 eaB)
      = specDomainSeparator keccak eaB := rfl
  have hstruct : keccak (EIP712_ORDER_SCHEMA_HASH keccak
        ++ (leftPad 0 32 maB ++ leftPad 0 32 taB
            ++ leftPad 0 32 faB ++ leftPad 0 32 saB)
        ++ (natToBeBytes 32 mam ++ natToBeBytes 32 tam
            ++ natToBeBytes 32 mf ++ natToBeBytes 32 tf
            ++ natToBeBytes 32 expir ++ natToBeBytes 32 salt)
        ++ (keccak madB ++ keccak tadB))
      = specOrderStructHash keccak maB taB faB saB mam tam mf tf expir salt
          madB tadB := by
    unfold specOrderStructHash
    rw [hschemaB]
    simp only [List.append_assoc]
  unfold get_order_hash
  rw [hexch]
  simp only [Option.some_bind, pyHexBytes]
  rw [heaP]
  simp only [Option.some_bind]
  rw [hAddr, hInt, hAsset]
  simp only [Option.some_bind]
  rw [hdom, hstruct]
  rfl

/-- Witness for get_order_hash_matches_spec on the sample order with null
addresses, zero amounts and empty asset data. -/
theorem get_order_hash_matches_spec_witness :
    get_order_hash witnessKeccak sampleJsonOrder
      = some (specOrderHash witnessKeccak
          (List.replicate 20 0) (List.replicate 20 0) (List.replicate 20 0)
          (List.replicate 20 0) (List.replicate 20 0)
          0 0 0 0 0 0 [] []) :=
  get_order_hash_matches_spec witnessKeccak sampleJsonOrder
    (strChars "0x0000000000000000000000000000000000000000")
    (strChars "0x0000000000000000000000000000000000000000")
    (strChars "0x0000000000000000000000000000000000000000")
    (strChars "0x0000000000000000000000000000000000000000")
    (strChars "0x0000000000000000000000000000000000000000")
    (strChars "0x") (strChars "0x")
    (List.replicate 20 0) (List.replicate 20 0) (List.replicate 20 0)
    (List.replicate 20 0) (List.replicate 20 0) [] []
    0 0 0 0 0 0
    rfl rfl rfl rfl rfl
    (by decide) (by decide) (by decide) (by decide) (by decide) (by decide)
    (by decide) (by decide) (by decide) (by decide)
    rfl rfl (by decide) (by decide)
    rfl (by decide) rfl (by decide) rfl (by decide) rfl (by decide)
    rfl (by decide) rfl (by decide)

theorem set_taker_address_some (st : ZxOrderState) (s : List Char) :
    set_taker_address st (some s)
      = (get_clean_address_or_throw s).map
          (fun a => { st with taker_address_ := some a }) := rfl

theorem set_fee_recipient_address_some (st : ZxOrderState) (s : List Char) :
    set_fee_recipient_address st (some s)
      = (get_clean_address_or_throw s).map
          (fun a => { st with fee_recipient_address_ := some a }) := rfl

theorem set_sender_address_some (st : ZxOrderState) (s : List Char) :
    set_sender_address st (some s)
      = (get_clean_address_or_throw s).map
          (fun a => { st with sender_address_ := some a }) := rfl

theorem set_exchange_address_some (st : ZxOrderState) (s : List Char) :
    set_exchange_address st (some s)
      = (get_clean_address_or_throw s).map
          (fun a => { st with exchange_address_ := some a }) := rfl

/-- Bookkeeping fields untouched by the maker_address setter. -/
theorem set_maker_address_bk {st st2 : ZxOrderState} {s : List Char}
    (h : set_maker_address st (some s) = some st2) :
    st2.created_at_msecs_ = st.created_at_msecs_
      ∧ st2.uCreatedAtMsecs = st.uCreatedAtMsecs
      ∧ st2.expiration_time_seconds_ = st.expiration_time_seconds_ := by
  rw [set_maker_address_some] at h
  rcases Option.map_eq_some'.mp h with ⟨a, _, hb⟩
  rw [← hb]
  exact ⟨rfl, rfl, rfl⟩

theorem set_taker_address_bk {st st2 : ZxOrderState} {s : List Char}
    (h : set_taker_address st (some s) = some st2) :
    st2.created_at_msecs_ = st.created_at_msecs_
      ∧ st2.uCreatedAtMsecs = st.uCreatedAtMsecs
      ∧ st2.expiration_time_seconds_ = st.expiration_time_seconds_ := by
  rw [set_taker_address_some] at h
  rcases Option.map_eq_some'.mp h with ⟨a, _, hb⟩
  rw [← hb]
  exact ⟨rfl, rfl, rfl⟩

theorem set_fee_recipient_address_bk {st st2 : ZxOrderState} {s : List Char}
    (h : set_fee_recipient_address st (some s) = some st2) :
    st2.created_at_msecs_ = st.created_at_msecs_
      ∧ st2.uCreatedAtMsecs = st.uCreatedAtMsecs
      ∧ st2.expiration_time_seconds_ = st.expiration_time_seconds_ := by
  rw [set_fee_recipient_address_some] at h
  rcases Option.map_eq_some'.mp h with ⟨a, _, hb⟩
  rw [← hb]
  exact ⟨rfl, rfl, rfl⟩

theorem set_sender_address_bk {st st2 : ZxOrderState} {s : List Char}
    (h : set_sender_address st (some s) = some st2) :
    st2.created_at_msecs_ = st.created_at_msecs_
      ∧ st2.uCreatedAtMsecs = st.uCreatedAtMsecs
      ∧ st2.expiration_time_seconds_ = st.expiration_time_seconds_ := by
  rw [set_sender_address_some] at h
  rcases Option.map_eq_some'.mp h with ⟨a, _, hb⟩
  rw [← hb]
  exact ⟨rfl, rfl, rfl⟩

theorem set_exchange_address_bk {st st2 : ZxOrderState} {s : List Char}
    (h : set_exchange_address st (some s) = some st2) :
    st2.created_at_msecs_ = st.created_at_msecs_
      ∧ st2.uCreatedAtMsecs = st.uCreatedAtMsecs
      ∧ st2.expiration_time_seconds_ = st.expiration_time_seconds_ := by
  rw [set_exchange_address_some] at h
  rcases Option.map_eq_some'.mp h with ⟨a, _, hb⟩
  rw [← hb]
  exact ⟨rfl, rfl, rfl⟩

theorem set_maker_asset_amount_bk {st st2 : ZxOrderState} {v : Int}
    (h : set_maker_asset_amount st v = some st2) :
    st2.created_at_msecs_ = st.created_at_msecs_
      ∧ st2.uCreatedAtMsecs = st.uCreatedAtMsecs
      ∧ st2.expiration_time_seconds_ = st.expiration_time_seconds_ := by
  unfold set_maker_asset_amount at h
  by_cases hv : v < 0
  · rw [if_pos hv] at h
    cases h
  · rw [if_neg hv] at h
    have hb := Option.some.inj h
    rw [← hb]
    exact ⟨rfl, rfl, rfl⟩

theorem set_taker_asset_amount_bk {st st2 : ZxOrderState} {v : Int}
    (h : set_taker_asset_amount st v = some st2) :
    st2.created_at_msecs_ = st.created_at_msecs_
      ∧ st2.uCreatedAtMsecs = st.uCreatedAtMsecs
      ∧ st2.expiration_time_seconds_ = st.expiration_time_seconds_ := by
  unfold set_taker_asset_amount at h
  by_cases hv : v < 0
  · rw [if_pos hv] at h
    cases h
  · rw [if_neg hv] at h
    have hb := Option.some.inj h
    rw [← hb]
    exact ⟨rfl, rfl, rfl⟩

theorem set_maker_fee_bk {st st2 : ZxOrderState} {v : Int}
    (h : set_maker_fee st v = some st2) :
    st2.created_at_msecs_ = st.created_at_msecs_
      ∧ st2.uCreatedAtMsecs = st.uCreatedAtMsecs
      ∧ st2.expiration_time_seconds_ = st.expiration_time_seconds_ := by
  unfold set_maker_fee at h
  by_cases hv : v < 0
  · rw [if_pos hv] at h
    cases h
  · rw [if_neg hv] at h
    have hb := Option.some.inj h
    rw [← hb]
    exact ⟨rfl, rfl, rfl⟩

theorem set_taker_fee_bk {st st2 : ZxOrderState} {v : Int}
    (h : set_taker_fee st v = some st2) :
    st2.created_at_msecs_ = st.created_at_msecs_
      ∧ st2.uCreatedAtMsecs = st.uCreatedAtMsecs
      ∧ st2.expiration_time_seconds_ = st.expiration_time_seconds_ := by
  unfold set_taker_fee at h
  by_cases hv : v < 0
  · rw [if_pos hv] at h
    cases h
  · rw [if_neg hv] at h
    have hb := Option.some.inj h
    rw [← hb]
    exact ⟨rfl, rfl, rfl⟩

theorem set_salt_bk {st st2 : ZxOrderState} {v : Int}
    (h : set_salt st v = some st2) :
    st2.created_at_msecs_ = st.created_at_msecs_
      ∧ st2.uCreatedAtMsecs = st.uCreatedAtMsecs
      ∧ st2.expiration_time_seconds_ = st.expiration_time_seconds_ := by
  unfold set_salt at h
  by_cases hv : v < 0
  · rw [if_pos hv] at h
    cases h
  · rw [if_neg hv] at h
    have hb := Option.some.inj h
    rw [← hb]
    exact ⟨rfl, rfl, rfl⟩

theorem set_maker_asset_data_bk {st st2 : ZxOrderState} {v : Option (List Char)}
    (h : set_maker_asset_data st v = some st2) :
    st2.created_at_msecs_ = st.created_at_msecs_
      ∧ st2.uCreatedAtMsecs = st.uCreatedAtMsecs
      ∧ st2.expiration_time_seconds_ = st.expiration_time_seconds_ := by
  cases v with
  | none =>
    have hb := Option.some.inj h
    rw [← hb]
    exact ⟨rfl, rfl, rfl⟩
  | some s =>
    rw [show set_maker_asset_data st (some s)
        = (parseHexBytes s).map (fun bs =>
            { st with maker_asset_data_ := some ('0' :: 'x' :: bytesToHex bs) })
      from rfl] at h
    rcases Option.map_eq_some'.mp h with ⟨a, _, hb⟩
    rw [← hb]
    exact ⟨rfl, rfl, rfl⟩

theorem set_taker_asset_data_bk {st st2 : ZxOrderState} {v : Option (List Char)}
    (h : set_taker_asset_data st v = some st2) :
    st2.created_at_msecs_ = st.created_at_msecs_
      ∧ st2.uCreatedAtMsecs = st.uCreatedAtMsecs
      ∧ st2.expiration_time_seconds_ = st.expiration_time_seconds_ := by
  cases v with
  | none =>
    have hb := Option.some.inj h
    rw [← hb]
    exact ⟨rfl, rfl, rfl⟩
  | some s =>
    rw [show set_taker_asset_data st (some s)
        = (parseHexBytes s).map (fun bs =>
            { st with taker_asset_data_ := some ('0' :: 'x' :: bytesToHex bs) })
      from rfl] at h
    rcases Option.map_eq_some'.mp h with ⟨a, _, hb⟩
    rw [← hb]
    exact ⟨rfl, rfl, rfl⟩

theorem initAddresses_bk {st st2 : ZxOrderState} {kw : ZxOrderKwargs}
    (h : initAddresses st kw = some st2) :
    st2.created_at_msecs_ = st.created_at_msecs_
      ∧ st2.uCreatedAtMsecs = st.uCreatedAtMsecs
      ∧ st2.expiration_time_seconds_ = st.expiration_time_seconds_ := by
  unfold initAddresses at h
  rcases Option.bind_eq_some.mp h with ⟨s1, h1, h⟩
  rcases Option.bind_eq_some.mp h with ⟨s2, h2, h⟩
  rcases Option.bind_eq_some.mp h with ⟨s3, h3, h⟩
  rcases Option.bind_eq_some.mp h with ⟨s4, h4, h5⟩
  obtain ⟨a1, b1, c1⟩ := set_maker_address_bk h1
  obtain ⟨a2, b2, c2⟩ := set_taker_address_bk h2
  obtain ⟨a3, b3, c3⟩ := set_fee_recipient_address_bk h3
  obtain ⟨a4, b4, c4⟩ := set_sender_address_bk h4
  obtain ⟨a5, b5, c5⟩ := set_exchange_address_bk h5
  exact ⟨by rw [a5, a4, a3, a2, a1], by rw [b5, b4, b3, b2, b1],
    by rw [c5, c4, c3, c2, c1]⟩

theorem initAmounts_bk {st st2 : ZxOrderState} {kw : ZxOrderKwargs}
    (h : initAmounts st kw = some st2) :
    st2.created_at_msecs_ = st.created_at_msecs_
      ∧ st2.uCreatedAtMsecs = st.uCreatedAtMsecs
      ∧ st2.expiration_time_seconds_ = st.expiration_time_seconds_ := by
  unfold initAmounts at h
  rcases Option.bind_eq_some.mp h with ⟨s1, h1, h⟩
  rcases Option.bind_eq_some.mp h with ⟨s2, h2, h⟩
  rcases Option.bind_eq_some.mp h with ⟨s3, h3, h⟩
  rcases Option.bind_eq_some.mp h with ⟨s4, h4, h5⟩
  obtain ⟨a1, b1, c1⟩ := set_maker_asset_amount_bk h1
  obtain ⟨a2, b2, c2⟩ := set_taker_asset_amount_bk h2
  obtain ⟨a3, b3, c3⟩ := set_taker_fee_bk h3
  obtain ⟨a4, b4, c4⟩ := set_maker_fee_bk h4
  obtain ⟨a5, b5, c5⟩ := set_salt_bk h5
  exact ⟨by rw [a5, a4, a3, a2, a1], by rw [b5, b4, b3, b2, b1],
    by rw [c5, c4, c3, c2, c1]⟩

theorem initAssetData_bk {st st2 : ZxOrderState} {kw : ZxOrderKwargs}
    (h : initAssetData st kw = some st2) :
    st2.created_at_msecs_ = st.created_at_msecs_
      ∧ st2.uCreatedAtMsecs = st.uCreatedAtMsecs
      ∧ st2.expiration_time_seconds_ = st.expiration_time_seconds_ := by
  unfold initAssetData at h
  rcases Option.bind_eq_some.mp h with ⟨s1, h1, h2⟩
  obtain ⟨a1, b1, c1⟩ := set_maker_asset_data_bk h1
  obtain ⟨a2, b2, c2⟩ := set_taker_asset_data_bk h2
  exact ⟨by rw [a2, a1], by rw [b2, b1], by rw [c2, c1]⟩

/-- The created_at_msecs property of ZxSignedOrder reads the member
created_at_msecs_ (the one the constructor never assigns). -/
def created_at_msecs_prop (st : ZxOrderState) : Option Int :=
  st.created_at_msecs_

/-- C10: after construction with any keyword arguments the created_at_msecs
property returns None, because __init__ wrote the creation time to the
accidental attribute _created_at_msecs_ (uCreatedAtMsecs here) instead of
created_at_msecs_; the default expiration is nevertheless derived from that
actual creation time. -/
theorem created_at_msecs_property_none (now : Int) (kw : ZxOrderKwargs)
    (st : ZxOrderState) (hinit : zxOrderInit now kw = some st) :
    created_at_msecs_prop st = none
      ∧ st.uCreatedAtMsecs = pyOrInt kw.created_at_msecs now
      ∧ (kw.expiration_time_seconds = none →
          st.expiration_time_seconds_
            = some (defaultExpirationSecs (pyOrInt kw.created_at_msecs now))) := by
  simp only [zxOrderInit] at hinit
  rcases Option.bind_eq_some.mp hinit with ⟨st1, h1, hrest⟩
  rcases Option.bind_eq_some.mp hrest with ⟨st2, h2, hrest2⟩
  rcases Option.bind_eq_some.mp hrest2 with ⟨st4, h4, h5⟩
  have hst := Option.some.inj h5
  obtain ⟨cA, uA, eA⟩ := initAddresses_bk h1
  obtain ⟨cB, uB, eB⟩ := initAmounts_bk h2
  cases hk : kw.expiration_time_seconds with
  | none =>
    rw [hk] at h4
    have h4r : initAssetData
        (set_expiration_time_seconds st2
          (pyOrInt kw.created_at_msecs now + 60000) 1000) kw = some st4 := h4
    obtain ⟨cD, uD, eD⟩ := initAssetData_bk h4r
    refine ⟨?_, ?_, fun _ => ?_⟩
    · show st.created_at_msecs_ = none
      rw [← hst]
      show st4.created_at_msecs_ = none
      rw [cD]
      show st2.created_at_msecs_ = none
      rw [cB, cA]
      rfl
    · rw [← hst]
      show st4.uCreatedAtMsecs = _
      rw [uD]
      show (set_expiration_time_seconds st2 _ _).uCreatedAtMsecs = _
      show st2.uCreatedAtMsecs = _
      rw [uB, uA]
    · rw [← hst]
      show st4.expiration_time_seconds_ = _
      rw [eD]
      rfl
  | some v =>
    rw [hk] at h4
    by_cases hv : v = 0
    · have h4r : initAssetData
          (if v = 0 then set_expiration_time_seconds st2
                (pyOrInt kw.created_at_msecs now + 60000) 1000
            else set_expiration_time_seconds st2 v 1) kw = some st4 := h4
      rw [if_pos hv] at h4r
      obtain ⟨cD, uD, eD⟩ := initAssetData_bk h4r
      refine ⟨?_, ?_, fun hcontra => by cases hcontra⟩
      · show st.created_at_msecs_ = none
        rw [← hst]
        show st4.created_at_msecs_ = none
        rw [cD]
        show st2.created_at_msecs_ = none
        rw [cB, cA]
        rfl
      · rw [← hst]
        show st4.uCreatedAtMsecs = _
        rw [uD]
        show st2.uCreatedAtMsecs = _
        rw [uB, uA]
    · have h4r : initAssetData
          (if v = 0 then set_expiration_time_seconds st2
                (pyOrInt kw.created_at_msecs now + 60000) 1000
            else set_expiration_time_seconds st2 v 1) kw = some st4 := h4
      rw [if_neg hv] at h4r
      obtain ⟨cD, uD, eD⟩ := initAssetData_bk h4r
      refine ⟨?_, ?_, fun hcontra => by cases hcontra⟩
      · show st.created_at_msecs_ = none
        rw [← hst]
        show st4.created_at_msecs_ = none
        rw [cD]
        show st2.created_at_msecs_ = none
        rw [cB, cA]
        rfl
      · rw [← hst]
        show st4.uCreatedAtMsecs = _
        rw [uD]
        show st2.uCreatedAtMsecs = _
        rw [uB, uA]

/-- Witness for created_at_msecs_property_none: empty keyword arguments at
creation time 1000. -/
theorem created_at_msecs_property_none_witness :
    ∃ st, zxOrderInit 1000 {} = some st
      ∧ (created_at_msecs_prop st = none
          ∧ st.uCreatedAtMsecs = pyOrInt ({} : ZxOrderKwargs).created_at_msecs 1000
          ∧ (({} : ZxOrderKwargs).expiration_time_seconds = none →
              st.expiration_time_seconds_
                = some (defaultExpirationSecs
                    (pyOrInt ({} : ZxOrderKwargs).created_at_msecs 1000)))) := by
  have hinit : ∃ st, zxOrderInit 1000 {} = some st := by
    match hE : zxOrderInit 1000 {} with
    | some st => exact ⟨st, rfl⟩
    | none => exact absurd hE (by decide)
  obtain ⟨st, hst⟩ := hinit
  exact ⟨st, hst, created_at_msecs_property_none 1000 {} st hst⟩

/-- Keyword arguments used to probe the hash cache: two asset-data blobs and
a 1-to-2 amount ratio. -/
def c4kwargs : ZxOrderKwargs :=
  { maker_asset_amount := some 1,
    taker_asset_amount := some 2,
    maker_asset_data := some (strChars "0x1234"),
    taker_asset_data := some (strChars "0x5678") }

/-- Counterexample to the hash-invalidation claim: initialize an order, cache
its hash (0x0645 under the witness digest), then mutate maker_asset_amount
through its setter.  The hash property still returns the stale 0x0645 while
recomputing over the current fields yields 0x0649: the setter never clears
the cache. -/
theorem hash_cache_counterexample :
    (((zxOrderInit 0 c4kwargs).bind (update_hash witnessKeccak)).bind
        (fun st => set_maker_asset_amount st 5)).map
        (fun st => (hashVal witnessKeccak st, computeOrderHash witnessKeccak st))
      = some (some (strChars "0x0645"), some (strChars "0x0649"))
      ∧ strChars "0x0645" ≠ strChars "0x0649" :=
  ⟨rfl, by decide⟩

/-- C4 (amended): mutating maker_asset_amount through its setter does not
clear a previously cached hash: the stored hash_ survives unchanged, so the
next read of the hash property returns the stale cached digest, not a
recomputation over the current field values. -/
theorem hash_not_cleared_by_setter (keccak : List Nat → List Nat)
    (st st' : ZxOrderState) (v : Int) (hsh : List Char)
    (h : set_maker_asset_amount st v = some st')
    (hh : st.hash_ = some hsh) :
    st'.hash_ = some hsh ∧ hashVal keccak st' = some hsh := by
  unfold set_maker_asset_amount at h
  by_cases hv : v < 0
  · rw [if_pos hv] at h
    cases h
  · rw [if_neg hv] at h
    have hst := Option.some.inj h
    have hz : st'.hash_ = st.hash_ := by rw [← hst]; rfl
    refine ⟨by rw [hz, hh], ?_⟩
    unfold hashVal
    rw [hz, hh]

/-- A state carrying a cached hash value 0xab. -/
def c4cached : ZxOrderState :=
  { blankOrderState with hash_ := some (strChars "0xab") }

/-- The state set_maker_asset_amount produces from c4cached at value 5. -/
def c4mutated : ZxOrderState :=
  update_ask_price (update_bid_price
    { c4cached with maker_asset_amount_ := some (intToDecChars 5) })

/-- Witness for hash_not_cleared_by_setter: the cached 0xab survives the
mutation and is what the hash property returns. -/
theorem hash_not_cleared_by_setter_witness :
    c4mutated.hash_ = some (strChars "0xab")
      ∧ hashVal witnessKeccak c4mutated = some (strChars "0xab") :=
  hash_not_cleared_by_setter witnessKeccak c4cached c4mutated 5
    (strChars "0xab") rfl rfl

/-- Rounding an exact zero gives zero for every denominator. -/
theorem rheNat_zero (den : Nat) : rheNat 0 den = 0 := by
  simp [rheNat]

/-- Formatting an exact zero does not depend on the denominator. -/
theorem formatFixedFrac_zero (den d : Nat) :
    formatFixedFrac 0 den d = formatFixedFrac 0 1 d := by
  unfold formatFixedFrac
  simp [rheNat_zero]

/-- Zero-padded formatting of an exact zero does not depend on the
denominator. -/
theorem formatFixedPadFrac_zero (w den d : Nat) :
    formatFixedPadFrac w 0 den d = formatFixedPadFrac w 0 1 d := by
  unfold formatFixedPadFrac
  rw [formatFixedFrac_zero]

/-- computeAskStr on a state whose two amounts are present. -/
theorem computeAskStr_some (st : ZxOrderState) (ms ts : List Char)
    (hm : st.maker_asset_amount_ = some ms)
    (ht : st.taker_asset_amount_ = some ts) :
    computeAskStr st
      = match parseInt ms, parseInt ts with
        | some m, some t =>
          if t = 0 then nines32
          else formatFixedPadFrac 32 (if t < 0 then -m else m) t.natAbs 18
        | _, _ => nines32 := by
  unfold computeAskStr
  rw [hm, ht]

/-- computeBidStr on a state whose two amounts are present. -/
theorem computeBidStr_some (st : ZxOrderState) (ms ts : List Char)
    (hm : st.maker_asset_amount_ = some ms)
    (ht : st.taker_asset_amount_ = some ts) :
    computeBidStr st
      = match parseInt ms, parseInt ts with
        | some m, some t =>
          if m = 0 then zeros32
          else formatFixedPadFrac 32 (if m < 0 then -t else t) m.natAbs 18
        | _, _ => zeros32 := by
  unfold computeBidStr
  rw [hm, ht]

/-- Keyword arguments with a zero maker amount and a positive taker
amount. -/
def c6kwargs : ZxOrderKwargs :=
  { maker_asset_amount := some 0,
    taker_asset_amount := some 5 }

/-- Counterexample to the sentinel claim: an order initialized with
maker_asset_amount 0 and taker_asset_amount 5 has ask_price 0 (the formatted
0/5), not the maximal sentinel; the sentinel arises from a zero TAKER
amount, not a zero maker amount. -/
theorem ask_sentinel_counterexample :
    ((zxOrderInit 0 c6kwargs).map
        (fun st => (askPriceDec st, bidPriceDec st)))
      = some ((⟨0, 18⟩ : PyDecimal), (⟨0, 0⟩ : PyDecimal))
      ∧ pyDecEq ⟨0, 18⟩ maxSentinelDec = false :=
  ⟨rfl, by decide⟩

/-- C6 (amended): with both amounts present and parsable, a zero TAKER
amount (with positive maker amount) makes ask_price the maximal sentinel and
bid_price zero, while a zero MAKER amount (with positive taker amount) makes
both derived prices zero; in both situations the division-by-zero is caught
and the price derivation returns normally. -/
theorem price_zero_division_guards (st : ZxOrderState) (ms ts : List Char)
    (m t : Int)
    (hm : st.maker_asset_amount_ = some ms)
    (ht : st.taker_asset_amount_ = some ts)
    (hpm : parseInt ms = some m) (hpt : parseInt ts = some t) :
    (t = 0 → 0 < m →
        askPriceDec (update_ask_price (update_bid_price st)) = maxSentinelDec
          ∧ pyDecEq (bidPriceDec (update_ask_price (update_bid_price st)))
              ⟨0, 0⟩ = true)
      ∧ (m = 0 → 0 < t →
          pyDecEq (askPriceDec (update_ask_price (update_bid_price st)))
              ⟨0, 0⟩ = true
            ∧ pyDecEq (bidPriceDec (update_ask_price (update_bid_price st)))
                ⟨0, 0⟩ = true) := by
  have hask : computeAskStr st = if t = 0 then nines32
      else formatFixedPadFrac 32 (if t < 0 then -m else m) t.natAbs 18 := by
    rw [computeAskStr_some st ms ts hm ht, hpm, hpt]
  have hbid : computeBidStr st = if m = 0 then zeros32
      else formatFixedPadFrac 32 (if m < 0 then -t else t) m.natAbs 18 := by
    rw [computeBidStr_some st ms ts hm ht, hpm, hpt]
  have haskP : askPriceDec (update_ask_price (update_bid_price st))
      = match parseDecStr (computeAskStr st) with
        | some d => d
        | none => maxSentinelDec := rfl
  have hbidP : bidPriceDec (update_ask_price (update_bid_price st))
      = match parseDecStr (computeBidStr st) with
        | some d => d
        | none => ⟨0, 0⟩ := rfl
  constructor
  · intro ht0 hm0
    subst ht0
    have hm' : m ≠ 0 := by omega
    rw [if_pos rfl] at hask
    rw [if_neg hm'] at hbid
    have hnum : (if m < 0 then -(0 : Int) else 0) = 0 := by simp
    rw [hnum, formatFixedPadFrac_zero] at hbid
    constructor
    · rw [haskP, hask]
      decide
    · rw [hbidP, hbid]
      decide
  · intro hm0 ht0
    subst hm0
    have ht' : t ≠ 0 := by omega
    rw [if_pos rfl] at hbid
    rw [if_neg ht'] at hask
    have hnum : (if t < 0 then -(0 : Int) else 0) = 0 := by simp
    rw [hnum, formatFixedPadFrac_zero] at hask
    constructor
    · rw [haskP, hask]
      decide
    · rw [hbidP, hbid]
      decide

/-- A state with maker amount 5 and taker amount 0 stored. -/
def c6state : ZxOrderState :=
  { blankOrderState with
    maker_asset_amount_ := some (strChars "5"),
    taker_asset_amount_ := some (strChars "0") }

/-- Witness for price_zero_division_guards: maker 5, taker 0 yields the
sentinel ask and a zero bid. -/
theorem price_zero_division_guards_witness :
    askPriceDec (update_ask_price (update_bid_price c6state)) = maxSentinelDec
      ∧ pyDecEq (bidPriceDec (update_ask_price (update_bid_price c6state)))
          ⟨0, 0⟩ = true :=
  (price_zero_division_guards c6state (strChars "5") (strChars "0") 5 0
      rfl rfl (by decide) (by decide)).1 rfl (by decide)

/-- Discriminator for the json string values. -/
def JVal.isStr : JVal → Bool
  | .jstr _ => true
  | _ => false

/-- A fully populated order state with five valid addresses. -/
def c9state : ZxOrderState :=
  { blankOrderState with
    maker_address_ := some (strChars "0xaaaaaaaaaaaaaaaaaaaaaaaaaaaaaaaaaaaaaaaa"),
    taker_address_ := some (strChars "0xbbbbbbbbbbbbbbbbbbbbbbbbbbbbbbbbbbbbbbbb"),
    fee_recipient_address_ := some (strChars "0xcccccccccccccccccccccccccccccccccccccccc"),
    sender_address_ := some (strChars "0xdddddddddddddddddddddddddddddddddddddddd"),
    exchange_address_ := some (strChars "0xeeeeeeeeeeeeeeeeeeeeeeeeeeeeeeeeeeeeeeee"),
    maker_asset_amount_ := some (strChars "1"),
    taker_asset_amount_ := some (strChars "2"),
    maker_fee_ := some (strChars "0"),
    taker_fee_ := some (strChars "0"),
    salt_ := some (strChars "7"),
    expiration_time_seconds_ := some 100,
    maker_asset_data_ := some (strChars "0x1234"),
    taker_asset_data_ := some (strChars "0x5678"),
    signature_ := some (strChars "0x01") }

/-- Counterexample to the all-addresses-checksummed claim: in for_web3 mode
with include_exchange_address true, the exchangeAddress entry is
HexBytes(exchange_address_) - a bytes value, not a checksummed hex
string. -/
theorem exchange_address_not_checksummed_counterexample :
    (toJson witnessKeccak c9state false true (some true) true).map
        (fun j => j.exchangeAddress)
      = some (some (JVal.jbytes (List.replicate 20 238)))
      ∧ JVal.isStr (JVal.jbytes (List.replicate 20 238)) = false :=
  ⟨rfl, rfl⟩

/-- C9 (amended): in for_web3 mode with include_exchange_address true, each
of the four order addresses is rendered as the checksummed hex string
produced by to_checksum_address, while exchangeAddress is rendered as the
raw HexBytes of the stored value, not as a checksummed string. -/
theorem web3_address_rendering (keccak : List Nat → List Nat)
    (st : ZxOrderState) (j : JsonOrder)
    (h : toJsonNoHash keccak st true (some true) true = some j) :
    (st.maker_address_.bind (to_checksum_address keccak)).map JVal.jstr
        = some j.makerAddress
      ∧ (st.taker_address_.bind (to_checksum_address keccak)).map JVal.jstr
        = some j.takerAddress
      ∧ (st.fee_recipient_address_.bind (to_checksum_address keccak)).map JVal.jstr
        = some j.feeRecipientAddress
      ∧ (st.sender_address_.bind (to_checksum_address keccak)).map JVal.jstr
        = some j.senderAddress
      ∧ (st.exchange_address_.bind parseHexBytes).map
          (fun bs => some (JVal.jbytes bs)) = some j.exchangeAddress := by
  have h' : (web3AddressFields keccak st).bind (fun addrs =>
      (web3IntFields st).bind fun ints =>
      (web3DataFields st).bind fun datas =>
      (st.expiration_time_seconds_.map JVal.jint).bind fun expiration =>
      ((jsonSignatureEntry st true).map some).bind fun sigEntry =>
      ((jsonExchangeEntry st true).map some).map fun exchEntry =>
        { makerAddress := addrs.1, takerAddress := addrs.2.1,
          feeRecipientAddress := addrs.2.2.1, senderAddress := addrs.2.2.2,
          makerAssetAmount := ints.1, takerAssetAmount := ints.2.1,
          makerFee := ints.2.2.1, takerFee := ints.2.2.2.1,
          salt := ints.2.2.2.2, expirationTimeSeconds := expiration,
          makerAssetData := datas.1, takerAssetData := datas.2,
          hash := none, signature := sigEntry,
          exchangeAddress := exchEntry }) = some j := h
  rcases Option.bind_eq_some.mp h' with ⟨addrs, hA, h1⟩
  rcases Option.bind_eq_some.mp h1 with ⟨ints, hI, h2⟩
  rcases Option.bind_eq_some.mp h2 with ⟨datas, hD, h3⟩
  rcases Option.bind_eq_some.mp h3 with ⟨expiration, hE, h4⟩
  rcases Option.bind_eq_some.mp h4 with ⟨sigEntry, hS, h5⟩
  rcases Option.map_eq_some'.mp h5 with ⟨exchEntry, hX, hj⟩
  rcases Option.bind_eq_some.mp hA with ⟨maker, hm, hA1⟩
  rcases Option.bind_eq_some.mp hA1 with ⟨taker, htk, hA2⟩
  rcases Option.bind_eq_some.mp hA2 with ⟨feeR, hf, hA3⟩
  rcases Option.bind_eq_some.mp hA3 with ⟨sender, hsd, hA4⟩
  have haddrs := Option.some.inj hA4
  rcases Option.map_eq_some'.mp hX with ⟨e, he, hee⟩
  have he' : (st.exchange_address_.bind parseHexBytes).map JVal.jbytes
      = some e := he
  rcases Option.map_eq_some'.mp he' with ⟨bs, hbs, hbe⟩
  subst hj
  subst haddrs
  refine ⟨?_, ?_, ?_, ?_, ?_⟩
  · rw [hm]; rfl
  · rw [htk]; rfl
  · rw [hf]; rfl
  · rw [hsd]; rfl
  · show (st.exchange_address_.bind parseHexBytes).map
        (fun bs => some (JVal.jbytes bs)) = some exchEntry
    rw [hbs, ← hee, ← hbe]
    rfl

/-- The json object toJsonNoHash produces for c9state in for_web3 mode. -/
def c9json : JsonOrder :=
  (toJsonNoHash witnessKeccak c9state true (some true) true).getD sampleJsonOrder

/-- Witness for web3_address_rendering at c9state under the witness
digest. -/
theorem web3_address_rendering_witness :
    (c9state.maker_address_.bind (to_checksum_address witnessKeccak)).map JVal.jstr
        = some c9json.makerAddress
      ∧ (c9state.taker_address_.bind (to_checksum_address witnessKeccak)).map JVal.jstr
        = some c9json.takerAddress
      ∧ (c9state.fee_recipient_address_.bind (to_checksum_address witnessKeccak)).map JVal.jstr
        = some c9json.feeRecipientAddress
      ∧ (c9state.sender_address_.bind (to_checksum_address witnessKeccak)).map JVal.jstr
        = some c9json.senderAddress
      ∧ (c9state.exchange_address_.bind parseHexBytes).map
          (fun bs => some (JVal.jbytes bs)) = some c9json.exchangeAddress :=
  web3_address_rendering witnessKeccak c9state c9json rfl

/-- C8: with num_ticks absent the three tick conversions hit the float
default 10000. and die on Decimal-times-float (TypeError, modelled None)
instead of scaling by the binary-market default; with the int 10000 passed
explicitly they return the documented values. -/
theorem veil_default_num_ticks_type_error :
    amount_to_veil_shares ⟨1, 0⟩ none = none
      ∧ veil_price_to_eth ⟨1, 0⟩ none = none
      ∧ eth_to_veil_price ⟨1, 0⟩ none = none
      ∧ amount_to_veil_shares ⟨1, 0⟩ (some 10000)
          = some (strChars "100000000000000")
      ∧ eth_to_veil_price ⟨5, 1⟩ (some 10000) = some (strChars "5000") :=
  ⟨rfl, rfl, rfl, by decide, by decide⟩
